import Mathlib

/-!
Shallow embedding of the Linux neighbour (address-resolution) subsystem,
`net/core/neighbour.c`, for checking the specification's claims.

Machine times (jiffies) are modelled as `Nat`; `time_after(a, b)` is modelled
as `b < a` and `time_before_eq(a, b)` as `a ≤ b` (the 32-bit wraparound of
jiffies comparisons is abstracted away, as none of the claims concern
wraparound).  Socket buffers (sk_buff) are modelled as `Nat` tags; an
`sk_buff_head` queue is a `List Nat` whose head is the oldest element
(`__skb_queue_tail` appends at the end, `__skb_dequeue` removes the head).
Protocol callbacks (`error_report`, `output`) are modelled as explicit
function parameters acting on the entry's NUD state, which captures their
ability to re-enter the state machine.
-/

namespace Neigh

/-- Modelled from the spec: NUD state bits.  They live in
`include/net/neighbour.h`, which is not part of this source excerpt; the
spec (§4.2) lists the states `NONE`, `INCOMPLETE`, `REACHABLE`, `STALE`,
`DELAY`, `PROBE`, `FAILED`, `PERMANENT`, `NOARP`.  The bit values are the
kernel's stable ABI values; `neighbour.c` only ever tests them through the
masks below. -/
def NUD_NONE : Nat := 0x00

/-- NUD state bit: address solicited, no reply yet. -/
def NUD_INCOMPLETE : Nat := 0x01

/-- NUD state bit: confirmed reachable, fast path active. -/
def NUD_REACHABLE : Nat := 0x02

/-- NUD state bit: reachability timer expired, not reconfirmed. -/
def NUD_STALE : Nat := 0x04

/-- NUD state bit: packet sent while stale, waiting before probing. -/
def NUD_DELAY : Nat := 0x08

/-- NUD state bit: actively unicast-probing. -/
def NUD_PROBE : Nat := 0x10

/-- NUD state bit: probe budget exhausted. -/
def NUD_FAILED : Nat := 0x20

/-- NUD state bit: administrative, no resolution needed. -/
def NUD_NOARP : Nat := 0x40

/-- NUD state bit: administrative, permanent entry. -/
def NUD_PERMANENT : Nat := 0x80

/-- Modelled from the spec: states managed by the per-entry timer
(`include/net/neighbour.h`). -/
def NUD_IN_TIMER : Nat := NUD_INCOMPLETE ||| NUD_REACHABLE ||| NUD_DELAY ||| NUD_PROBE

/-- Modelled from the spec: states in which a link-layer address is known
(`include/net/neighbour.h`). -/
def NUD_VALID : Nat :=
  NUD_PERMANENT ||| NUD_NOARP ||| NUD_REACHABLE ||| NUD_PROBE ||| NUD_STALE ||| NUD_DELAY

/-- Modelled from the spec: connected-class states (fast path eligible)
(`include/net/neighbour.h`). -/
def NUD_CONNECTED : Nat := NUD_PERMANENT ||| NUD_NOARP ||| NUD_REACHABLE

/-- Modelled from the spec: `neigh_update` flag, allows overriding a
different cached link-layer address unconditionally. -/
def NEIGH_UPDATE_F_OVERRIDE : Nat := 0x01

/-- Modelled from the spec: `neigh_update` flag, demotes a connected entry
instead of overriding its address. -/
def NEIGH_UPDATE_F_WEAK_OVERRIDE : Nat := 0x02

/-- Modelled from the spec: `neigh_update` flag, allows overriding the
router flag. -/
def NEIGH_UPDATE_F_OVERRIDE_ISROUTER : Nat := 0x04

/-- Modelled from the spec: `neigh_update` flag, the neighbour is known as
a router. -/
def NEIGH_UPDATE_F_ISROUTER : Nat := 0x40000000

/-- Modelled from the spec: `neigh_update` flag, administrative change. -/
def NEIGH_UPDATE_F_ADMIN : Nat := 0x80000000

/-- Modelled from the spec: router flag in the entry's `flags` byte. -/
def NTF_ROUTER : Nat := 0x80

/-- Modelled from the spec: main hash table mask (fixed-size bucket array,
power-of-two mask, `include/net/neighbour.h`). -/
def NEIGH_HASHMASK : Nat := 0x1F

/-- Modelled from the spec: proxy hash table mask. -/
def PNEIGH_HASHMASK : Nat := 0xF

/-- Error numbers used by the code (values are the standard errno values;
the claims depend only on which paths fail, not on the numbers). -/
def EPERM : Int := 1

/-- errno: invalid argument. -/
def EINVAL : Int := 22

/-- errno: no buffer space available. -/
def ENOBUFS : Int := 105

/-- Per-device tunable parameters (`struct neigh_parms`).  Only the fields
read by the modelled functions are kept. -/
structure NeighParms where
  ucast_probes : Nat
  mcast_probes : Nat
  app_probes : Nat
  retrans_time : Nat
  base_reachable_time : Nat
  reachable_time : Nat
  delay_probe_time : Nat
  gc_staletime : Nat
  queue_len : Nat
  dead : Bool
  deriving DecidableEq

/-- Which output function is installed on the entry (`neigh->output`).
`generic` stands for `neigh->ops->output` (installed by `neigh_suspect`),
`connectedFast` for `neigh->ops->connected_output` (installed by
`neigh_connect`). -/
inductive OutputPath
  | blackhole
  | generic
  | connectedFast
  deriving DecidableEq

/-- A neighbour cache entry (`struct neighbour`).  `timerExpires` is
`some e` when the per-entry timer is armed with expiry `e`.  `arp_queue`
holds the pending packets, head = oldest. -/
structure Neighbour where
  key : Nat
  dev : Nat
  nud_state : Nat
  probes : Nat
  confirmed : Nat
  used : Nat
  updated : Nat
  dead : Bool
  refcnt : Nat
  flags : Nat
  ha : Nat
  arp_queue : List Nat
  output : OutputPath
  timerExpires : Option Nat
  parms : NeighParms
  deriving DecidableEq

/-- Result of `__neigh_event_send`: the updated entry, the return code,
the skbs freed with `kfree_skb`, and the skbs passed to
`ops->error_report`.  `__neigh_event_send` contains no call to
`error_report` at all — its `NUD_FAILED` branch disposes of the packet
with `kfree_skb` — so `reported` is always empty; the field exists so that
the disposal of the packet can be stated. -/
structure SendResult where
  neigh : Neighbour
  rc : Nat
  dropped : List Nat
  reported : List Nat
  deriving DecidableEq

/-- The enqueue tail of `__neigh_event_send` (neighbour.c:751-763): if the
entry ended up in exactly `NUD_INCOMPLETE`, a supplied packet is queued at
the tail, first dropping the oldest queued packet (`arp_queue.next`) when
the queue already holds at least `queue_len` packets.  On an empty queue
with `queue_len = 0` the C would unlink the queue head sentinel (undefined
behaviour); the model makes that unlink a no-op, which is unreachable
under the well-formedness bound `1 ≤ queue_len`. -/
def neigh_enqueue (n1 : Neighbour) (skb : Option Nat) : SendResult :=
  if n1.nud_state = NUD_INCOMPLETE then
    match skb with
    | some p =>
      if n1.parms.queue_len ≤ n1.arp_queue.length then
        ⟨{ n1 with arp_queue := n1.arp_queue.tail ++ [p] }, 1,
         n1.arp_queue.head?.toList, []⟩
      else
        ⟨{ n1 with arp_queue := n1.arp_queue ++ [p] }, 1, [], []⟩
    | none => ⟨n1, 1, [], []⟩
  else ⟨n1, 0, [], []⟩

/-- `__neigh_event_send` (neighbour.c:715-767).  The C contains an early
`return 1` inside the zero-probe branch; here that branch is hoisted to
the second top-level `if`, which is reached under exactly the same
conditions. -/
def __neigh_event_send (n : Neighbour) (skb : Option Nat) (now : Nat) : SendResult :=
  if n.nud_state &&& (NUD_CONNECTED ||| NUD_DELAY ||| NUD_PROBE) ≠ 0 then
    ⟨n, 0, [], []⟩
  else if n.nud_state &&& (NUD_STALE ||| NUD_INCOMPLETE) = 0 ∧
          n.parms.mcast_probes + n.parms.app_probes = 0 then
    ⟨{ n with nud_state := NUD_FAILED }, 1, skb.toList, []⟩
  else if n.nud_state &&& (NUD_STALE ||| NUD_INCOMPLETE) = 0 then
    neigh_enqueue
      { n with probes := n.parms.ucast_probes,
               nud_state := NUD_INCOMPLETE,
               refcnt := n.refcnt + 1,
               timerExpires := some (now + 1) } skb
  else if n.nud_state &&& NUD_STALE ≠ 0 then
    neigh_enqueue
      { n with refcnt := n.refcnt + 1,
               nud_state := NUD_DELAY,
               timerExpires := some (now + n.parms.delay_probe_time) } skb
  else
    neigh_enqueue n skb

/-- Helper: the enqueue tail preserves the queue-length bound whenever the
configured bound is at least 1. -/
theorem neigh_enqueue_len_le (n1 : Neighbour) (skb : Option Nat)
    (h1 : 1 ≤ n1.parms.queue_len) (h2 : n1.arp_queue.length ≤ n1.parms.queue_len) :
    (neigh_enqueue n1 skb).neigh.arp_queue.length ≤ n1.parms.queue_len := by
  unfold neigh_enqueue
  split
  · cases skb with
    | none => exact h2
    | some p =>
      simp only
      split
      · simp only [SendResult.neigh, List.length_append, List.length_tail,
          List.length_cons, List.length_nil]
        omega
      · simp only [SendResult.neigh, List.length_append, List.length_cons,
          List.length_nil]
        omega
  · exact h2

/-- C2: for every entry whose pending queue respects the configured bound
(with the well-formed configuration `queue_len ≥ 1`), `__neigh_event_send`
keeps the queue length within `queue_len`; and when it enqueues a packet
onto an entry already in `NUD_INCOMPLETE` state whose queue holds at least
`queue_len` packets, exactly one packet — the oldest (the queue head) — is
dropped and the new packet is appended at the tail. -/
theorem event_send_queue_bound (n : Neighbour) (skb : Option Nat) (now : Nat)
    (hq : 1 ≤ n.parms.queue_len) (hlen : n.arp_queue.length ≤ n.parms.queue_len) :
    ((__neigh_event_send n skb now).neigh.arp_queue.length ≤ n.parms.queue_len) ∧
    (∀ p, skb = some p → n.nud_state = NUD_INCOMPLETE →
      n.parms.queue_len ≤ n.arp_queue.length →
      ∃ h t, n.arp_queue = h :: t ∧
        (__neigh_event_send n skb now).neigh.arp_queue = t ++ [p] ∧
        (__neigh_event_send n skb now).dropped = [h]) := by
  constructor
  · unfold __neigh_event_send
    split_ifs <;>
      first
        | exact hlen
        | exact neigh_enqueue_len_le _ skb hq hlen
  · intro p hp hstate hfull
    subst hp
    have c1 : ¬ (n.nud_state &&& (NUD_CONNECTED ||| NUD_DELAY ||| NUD_PROBE) ≠ 0) := by
      rw [hstate]; decide
    have c2 : ¬ (n.nud_state &&& (NUD_STALE ||| NUD_INCOMPLETE) = 0 ∧
        n.parms.mcast_probes + n.parms.app_probes = 0) := by
      intro h
      rw [hstate] at h
      exact absurd h.1 (by decide)
    have c3 : ¬ (n.nud_state &&& (NUD_STALE ||| NUD_INCOMPLETE) = 0) := by
      rw [hstate]; decide
    have c4 : ¬ (n.nud_state &&& NUD_STALE ≠ 0) := by
      rw [hstate]; decide
    simp only [__neigh_event_send, if_neg c1, if_neg c2, if_neg c3, if_neg c4]
    obtain ⟨h, t, hcons⟩ : ∃ h t, n.arp_queue = h :: t := by
      cases hc : n.arp_queue with
      | nil => rw [hc] at hfull; simp at hfull; omega
      | cons a l => exact ⟨a, l, rfl⟩
    have hfull2 : n.parms.queue_len ≤ t.length + 1 := by
      rw [hcons] at hfull; simpa using hfull
    refine ⟨h, t, hcons, ?_, ?_⟩ <;>
      simp [neigh_enqueue, if_pos hstate, hcons, hfull2]

/-- Concrete parameter block with zero multicast and application probes
(the condition `__neigh_event_send` tests); `queue_len = 3`. -/
def parmsZero : NeighParms :=
  { ucast_probes := 0, mcast_probes := 0, app_probes := 0, retrans_time := 10,
    base_reachable_time := 30, reachable_time := 30, delay_probe_time := 5,
    gc_staletime := 60, queue_len := 3, dead := false }

/-- Concrete fresh entry in `NUD_NONE` with an empty packet queue. -/
def noneEntry : Neighbour :=
  { key := 1, dev := 1, nud_state := NUD_NONE, probes := 0, confirmed := 0,
    used := 0, updated := 0, dead := false, refcnt := 2, flags := 0, ha := 0,
    arp_queue := [], output := OutputPath.generic, timerExpires := none,
    parms := parmsZero }

/-- Concrete entry in `NUD_INCOMPLETE` with a full queue (three packets,
`queue_len = 3`). -/
def incEntry : Neighbour :=
  { noneEntry with nud_state := NUD_INCOMPLETE, arp_queue := [1, 2, 3] }

theorem event_send_queue_bound_witness :
    ((__neigh_event_send incEntry (some 9) 50).neigh.arp_queue.length ≤
      incEntry.parms.queue_len) ∧
    (__neigh_event_send incEntry (some 9) 50).neigh.arp_queue = [2, 3, 9] ∧
    (__neigh_event_send incEntry (some 9) 50).dropped = [1] := by
  have hw := event_send_queue_bound incEntry (some 9) 50 (by decide) (by decide)
  obtain ⟨hd, tl, e1, e2, e3⟩ := hw.2 9 rfl (by decide) (by decide)
  have e1c : ([1, 2, 3] : List Nat) = hd :: tl := e1
  injection e1c with i1 i2
  refine ⟨hw.1, ?_, ?_⟩
  · rw [e2, ← i2]; rfl
  · rw [e3, ← i1]

/-- C4 counterexample: at this concrete input (fresh `NUD_NONE` entry,
zero configured probe counts, packet tag 7) the entry does immediately
enter `NUD_FAILED`, but the packet is freed with `kfree_skb` — the
`dropped` list — and is never passed to `ops->error_report` (the
`reported` list stays empty): `__neigh_event_send` contains no error-report
call, contradicting the claim that the packet is error-reported rather
than silently dropped. -/
theorem event_send_zero_probe_counterexample :
    (__neigh_event_send noneEntry (some 7) 100).neigh.nud_state = NUD_FAILED ∧
    (__neigh_event_send noneEntry (some 7) 100).dropped = [7] ∧
    (__neigh_event_send noneEntry (some 7) 100).reported = [] ∧
    (__neigh_event_send noneEntry (some 7) 100).rc = 1 := by
  decide

/-- C4 (amended): when `__neigh_event_send` is called with a packet on an
entry that is not in CONNECTED/DELAY/PROBE/STALE/INCOMPLETE state and the
multicast plus application probe counts are configured to zero
(`ucast_probes` is not consulted), the entry immediately enters
`NUD_FAILED` state, the packet is freed (dropped) without being passed to
`error_report`, and the call returns 1 so the caller does not transmit. -/
theorem event_send_zero_probe_failed (n : Neighbour) (p : Nat) (now : Nat)
    (h1 : n.nud_state &&& (NUD_CONNECTED ||| NUD_DELAY ||| NUD_PROBE) = 0)
    (h2 : n.nud_state &&& (NUD_STALE ||| NUD_INCOMPLETE) = 0)
    (h3 : n.parms.mcast_probes + n.parms.app_probes = 0) :
    (__neigh_event_send n (some p) now).neigh.nud_state = NUD_FAILED ∧
    (__neigh_event_send n (some p) now).dropped = [p] ∧
    (__neigh_event_send n (some p) now).reported = [] ∧
    (__neigh_event_send n (some p) now).rc = 1 := by
  have c1 : ¬ (n.nud_state &&& (NUD_CONNECTED ||| NUD_DELAY ||| NUD_PROBE) ≠ 0) :=
    fun h => h h1
  unfold __neigh_event_send
  rw [if_neg c1, if_pos (And.intro h2 h3)]
  exact ⟨rfl, rfl, rfl, rfl⟩

theorem event_send_zero_probe_failed_witness :
    (__neigh_event_send noneEntry (some 3) 5).neigh.nud_state = NUD_FAILED ∧
    (__neigh_event_send noneEntry (some 3) 5).dropped = [3] ∧
    (__neigh_event_send noneEntry (some 3) 5).reported = [] ∧
    (__neigh_event_send noneEntry (some 3) 5).rc = 1 :=
  event_send_zero_probe_failed noneEntry 3 5 (by decide) (by decide) (by decide)

/-- `neigh_max_probes` (neighbour.c:604-610): the probe budget is
`ucast_probes` for a `NUD_PROBE` entry, `ucast_probes + app_probes +
mcast_probes` otherwise (the INCOMPLETE case). -/
def neigh_max_probes (n : Neighbour) : Nat :=
  if n.nud_state &&& NUD_PROBE ≠ 0 then n.parms.ucast_probes
  else n.parms.ucast_probes + n.parms.app_probes + n.parms.mcast_probes

/-- The error-report drain loop of `neigh_timer_handler`
(neighbour.c:683-688): while the state is still exactly `NUD_FAILED`,
dequeue one packet and pass it to `ops->error_report` (modelled as `er`,
taking the current state and the packet and returning the state the
callback leaves behind — it may re-enter the state machine).  Returns the
final state and the list of packets reported, in dequeue order. -/
def failedDrain (er : Nat → Nat → Nat) : Nat → List Nat → Nat × List Nat
  | st, [] => (st, [])
  | st, p :: rest =>
    if st = NUD_FAILED then
      let r := failedDrain er (er st p) rest
      (r.1, p :: r.2)
    else (st, [])

/-- First phase of `neigh_timer_handler` (neighbour.c:635-667): re-evaluate
the state of a timer-managed entry.  `nextInit` is the `now + HZ` initial
value of `next`. -/
def timerReeval (now : Nat) (nextInit : Nat) (n : Neighbour) : Neighbour × Nat :=
  if n.nud_state &&& NUD_REACHABLE ≠ 0 then
    if now ≤ n.confirmed + n.parms.reachable_time then
      (n, n.confirmed + n.parms.reachable_time)
    else if now ≤ n.used + n.parms.delay_probe_time then
      ({ n with nud_state := NUD_DELAY, output := OutputPath.generic },
       now + n.parms.delay_probe_time)
    else
      ({ n with nud_state := NUD_STALE, output := OutputPath.generic }, nextInit)
  else if n.nud_state &&& NUD_DELAY ≠ 0 then
    if now ≤ n.confirmed + n.parms.delay_probe_time then
      ({ n with nud_state := NUD_REACHABLE, output := OutputPath.connectedFast },
       n.confirmed + n.parms.reachable_time)
    else
      ({ n with nud_state := NUD_PROBE, probes := 0 }, now + n.parms.retrans_time)
  else (n, now + n.parms.retrans_time)

/-- Result of a timer firing: the updated entry, the packets passed to
`error_report` in order, whether `ops->solicit` was invoked, and the
`notify` flag. -/
structure TimerResult where
  neigh : Neighbour
  reported : List Nat
  solicited : Bool
  notify : Bool
  deriving DecidableEq

/-- `neigh_timer_handler` (neighbour.c:615-713): state re-evaluation, then
the probe-budget failure check with its error-report drain and final
`skb_queue_purge`, then timer re-arm, then solicitation (which increments
the probe counter).  `neigh_suspect`/`neigh_connect` are modelled by their
effect on the installed output path. -/
def neigh_timer_handler (hz : Nat) (er : Nat → Nat → Nat) (now : Nat)
    (n : Neighbour) : TimerResult :=
  if n.nud_state &&& NUD_IN_TIMER = 0 then ⟨n, [], false, false⟩
  else
    let r1 := timerReeval now (now + hz) n
    let n1 := r1.1
    let next := r1.2
    let r2 :=
      if n1.nud_state &&& (NUD_INCOMPLETE ||| NUD_PROBE) ≠ 0 ∧
         neigh_max_probes n1 ≤ n1.probes then
        let d := failedDrain er NUD_FAILED n1.arp_queue
        (({ n1 with nud_state := d.1, arp_queue := [] }, d.2, true) :
          Neighbour × List Nat × Bool)
      else ((n1, [], false) : Neighbour × List Nat × Bool)
    let n2 := r2.1
    let n3 :=
      if n2.nud_state &&& NUD_IN_TIMER ≠ 0 then
        { n2 with refcnt := n2.refcnt + 1,
                  timerExpires := some (max next (now + hz / 2)) }
      else n2
    if n3.nud_state &&& (NUD_INCOMPLETE ||| NUD_PROBE) ≠ 0 then
      ⟨{ n3 with probes := n3.probes + 1 }, r2.2.1, true, r2.2.2⟩
    else ⟨n3, r2.2.1, false, r2.2.2⟩

/-- Helper: whatever the error-report callback does, the drained packets
form an initial segment of the queue, in order. -/
theorem failedDrain_reported_init (er : Nat → Nat → Nat) (st : Nat) (q : List Nat) :
    ∃ t, q = (failedDrain er st q).2 ++ t := by
  induction q generalizing st with
  | nil => exact ⟨[], rfl⟩
  | cons p rest ih =>
    unfold failedDrain
    split
    · obtain ⟨t, ht⟩ := ih (er st p)
      exact ⟨t, by simp only [List.cons_append]; rw [← ht]⟩
    · exact ⟨p :: rest, rfl⟩

/-- Helper: if the error-report callback always leaves the state at
`NUD_FAILED`, the drain reports the entire queue and ends at
`NUD_FAILED`. -/
theorem failedDrain_const_failed (er : Nat → Nat → Nat)
    (her : ∀ s p, er s p = NUD_FAILED) (q : List Nat) :
    failedDrain er NUD_FAILED q = (NUD_FAILED, q) := by
  induction q with
  | nil => rfl
  | cons p rest ih => simp [failedDrain, her, ih]

/-- Helper: shape of the timer handler on an INCOMPLETE/PROBE entry whose
probe budget is exhausted. -/
theorem timer_handler_failed_shape (hz : Nat) (er : Nat → Nat → Nat) (now : Nat)
    (n : Neighbour)
    (h1 : n.nud_state &&& NUD_IN_TIMER ≠ 0)
    (h2 : n.nud_state &&& NUD_REACHABLE = 0)
    (h3 : n.nud_state &&& NUD_DELAY = 0)
    (h4 : n.nud_state &&& (NUD_INCOMPLETE ||| NUD_PROBE) ≠ 0)
    (h5 : neigh_max_probes n ≤ n.probes) :
    (neigh_timer_handler hz er now n).reported =
      (failedDrain er NUD_FAILED n.arp_queue).2 ∧
    (neigh_timer_handler hz er now n).neigh.arp_queue = [] ∧
    (neigh_timer_handler hz er now n).neigh.nud_state =
      (failedDrain er NUD_FAILED n.arp_queue).1 := by
  have hre : timerReeval now (now + hz) n = (n, now + n.parms.retrans_time) := by
    unfold timerReeval
    rw [if_neg (fun hh => hh h2), if_neg (fun hh => hh h3)]
  simp only [neigh_timer_handler, if_neg h1, hre, if_pos (And.intro h4 h5)]
  refine ⟨?_, ?_, ?_⟩ <;> split <;> split <;> rfl

/-- C3: when the per-entry timer fires on an entry in exactly
`NUD_INCOMPLETE` or `NUD_PROBE` state whose probe counter has reached the
configured maximum — `ucast_probes` alone for PROBE, `ucast_probes +
app_probes + mcast_probes` for INCOMPLETE — the state is set to
`NUD_FAILED` and the queued packets are dequeued one at a time, each
passed to `error_report`, re-checking on each iteration that the state is
still `NUD_FAILED` (so the reported packets are an initial segment of the
queue in order for an arbitrary callback, and the whole queue when the
callback keeps the state FAILED); any remaining packets are purged, the
final queue being empty. -/
theorem timer_probe_budget_failure (hz : Nat) (er : Nat → Nat → Nat) (now : Nat)
    (n : Neighbour)
    (hstate : n.nud_state = NUD_INCOMPLETE ∨ n.nud_state = NUD_PROBE)
    (hbudget : neigh_max_probes n ≤ n.probes) :
    (∃ t, n.arp_queue = (neigh_timer_handler hz er now n).reported ++ t) ∧
    (neigh_timer_handler hz er now n).neigh.arp_queue = [] ∧
    ((∀ s p, er s p = NUD_FAILED) →
      (neigh_timer_handler hz er now n).reported = n.arp_queue ∧
      (neigh_timer_handler hz er now n).neigh.nud_state = NUD_FAILED) ∧
    (n.nud_state = NUD_PROBE → neigh_max_probes n = n.parms.ucast_probes) ∧
    (n.nud_state = NUD_INCOMPLETE →
      neigh_max_probes n =
        n.parms.ucast_probes + n.parms.app_probes + n.parms.mcast_probes) := by
  have h1 : n.nud_state &&& NUD_IN_TIMER ≠ 0 := by
    rcases hstate with h | h <;> rw [h] <;> decide
  have h2 : n.nud_state &&& NUD_REACHABLE = 0 := by
    rcases hstate with h | h <;> rw [h] <;> decide
  have h3 : n.nud_state &&& NUD_DELAY = 0 := by
    rcases hstate with h | h <;> rw [h] <;> decide
  have h4 : n.nud_state &&& (NUD_INCOMPLETE ||| NUD_PROBE) ≠ 0 := by
    rcases hstate with h | h <;> rw [h] <;> decide
  obtain ⟨e1, e2, e3⟩ := timer_handler_failed_shape hz er now n h1 h2 h3 h4 hbudget
  refine ⟨?_, e2, ?_, ?_, ?_⟩
  · rw [e1]; exact failedDrain_reported_init er NUD_FAILED n.arp_queue
  · intro her
    rw [e1, e3, failedDrain_const_failed er her]
    exact ⟨rfl, rfl⟩
  · intro hp
    unfold neigh_max_probes
    rw [hp, if_pos (by decide : NUD_PROBE &&& NUD_PROBE ≠ 0)]
  · intro hp
    unfold neigh_max_probes
    rw [hp, if_neg (by decide : ¬ NUD_INCOMPLETE &&& NUD_PROBE ≠ 0)]

theorem timer_probe_budget_failure_witness :
    (neigh_timer_handler 100 (fun _ _ => NUD_FAILED) 50 incEntry).reported =
      [1, 2, 3] ∧
    (neigh_timer_handler 100 (fun _ _ => NUD_FAILED) 50 incEntry).neigh.arp_queue
      = [] ∧
    (neigh_timer_handler 100 (fun _ _ => NUD_FAILED) 50 incEntry).neigh.nud_state
      = NUD_FAILED := by
  have h := timer_probe_budget_failure 100 (fun _ _ => NUD_FAILED) 50 incEntry
    (Or.inl (by decide)) (by decide)
  obtain ⟨-, e2, e3, -, -⟩ := h
  obtain ⟨r1, r2⟩ := e3 (fun _ _ => rfl)
  exact ⟨r1.trans (by decide), e2, r2⟩

/-- Concrete `NUD_REACHABLE` entry whose reachable-time window (30 ticks
from `confirmed = 0`) and delay-probe window (5 ticks from `used = 0`)
have both elapsed at `now = 100`. -/
def reachEntry : Neighbour :=
  { noneEntry with nud_state := NUD_REACHABLE }

/-- C7 counterexample: the timer fires at `now = 100` on a REACHABLE entry
whose reachable-time window has elapsed (`confirmed + reachable_time =
30 < 100`), yet the entry moves to `NUD_STALE`, not `NUD_DELAY` as the
claim states: the code moves an expired REACHABLE entry to DELAY only if
it was used within `delay_probe_time`, and to STALE otherwise
(neighbour.c:640-650). -/
theorem timer_reachable_timeout_counterexample :
    reachEntry.confirmed + reachEntry.parms.reachable_time < 100 ∧
    (neigh_timer_handler 100 (fun _ _ => NUD_FAILED) 100 reachEntry).neigh.nud_state
      = NUD_STALE ∧
    NUD_STALE ≠ NUD_DELAY := by decide

/-- C7 (amended): when the timer fires on a REACHABLE entry whose
reachable-time window has elapsed, the entry moves to `NUD_DELAY` if it
was used within `delay_probe_time` of now, and otherwise to `NUD_STALE`
(the fast path suspended in both cases); and when the timer fires on a
DELAY entry, it returns to `NUD_REACHABLE` (fast path reinstalled) if a
confirmation was seen within `delay_probe_time`, or else escalates to
`NUD_PROBE` with the probe counter reset to zero before the handler sends
the first unicast probe (leaving the counter at 1 and the solicit callback
invoked), provided at least one unicast probe is configured. -/
theorem timer_reachable_delay_transition (hz : Nat) (er : Nat → Nat → Nat)
    (now : Nat) (n : Neighbour) :
    (n.nud_state = NUD_REACHABLE → n.confirmed + n.parms.reachable_time < now →
      ((now ≤ n.used + n.parms.delay_probe_time →
        (neigh_timer_handler hz er now n).neigh.nud_state = NUD_DELAY ∧
        (neigh_timer_handler hz er now n).neigh.output = OutputPath.generic) ∧
       (n.used + n.parms.delay_probe_time < now →
        (neigh_timer_handler hz er now n).neigh.nud_state = NUD_STALE ∧
        (neigh_timer_handler hz er now n).neigh.output = OutputPath.generic))) ∧
    (n.nud_state = NUD_DELAY →
      ((now ≤ n.confirmed + n.parms.delay_probe_time →
        (neigh_timer_handler hz er now n).neigh.nud_state = NUD_REACHABLE ∧
        (neigh_timer_handler hz er now n).neigh.output = OutputPath.connectedFast) ∧
       (n.confirmed + n.parms.delay_probe_time < now → 1 ≤ n.parms.ucast_probes →
        (neigh_timer_handler hz er now n).neigh.nud_state = NUD_PROBE ∧
        (neigh_timer_handler hz er now n).neigh.probes = 1 ∧
        (neigh_timer_handler hz er now n).solicited = true))) := by
  constructor
  · intro hst helapsed
    have hit : ¬ (n.nud_state &&& NUD_IN_TIMER = 0) := by rw [hst]; decide
    have hr : n.nud_state &&& NUD_REACHABLE ≠ 0 := by rw [hst]; decide
    have hne : ¬ (now ≤ n.confirmed + n.parms.reachable_time) := by omega
    constructor
    · intro hdel
      simp [neigh_timer_handler, timerReeval, hit, hr, hne, hdel,
        (by decide : NUD_DELAY &&& (NUD_INCOMPLETE ||| NUD_PROBE) = 0),
        (by decide : NUD_DELAY &&& NUD_IN_TIMER ≠ 0)]
    · intro hdel
      have hne2 : ¬ (now ≤ n.used + n.parms.delay_probe_time) := by omega
      simp [neigh_timer_handler, timerReeval, hit, hr, hne, hne2,
        (by decide : NUD_STALE &&& (NUD_INCOMPLETE ||| NUD_PROBE) = 0),
        (by decide : NUD_STALE &&& NUD_IN_TIMER = 0)]
  · intro hst
    have hit : ¬ (n.nud_state &&& NUD_IN_TIMER = 0) := by rw [hst]; decide
    have hnr : n.nud_state &&& NUD_REACHABLE = 0 := by rw [hst]; decide
    have hd : n.nud_state &&& NUD_DELAY ≠ 0 := by rw [hst]; decide
    constructor
    · intro hconf
      simp [neigh_timer_handler, timerReeval, hit, hnr, hd, hconf,
        (by decide : NUD_REACHABLE &&& (NUD_INCOMPLETE ||| NUD_PROBE) = 0),
        (by decide : NUD_REACHABLE &&& NUD_IN_TIMER ≠ 0)]
    · intro hconf hucast
      have hne : ¬ (now ≤ n.confirmed + n.parms.delay_probe_time) := by omega
      have hcond : ({ n with nud_state := NUD_PROBE, probes := 0 } :
          Neighbour).nud_state &&& NUD_PROBE ≠ 0 := by
        show NUD_PROBE &&& NUD_PROBE ≠ 0
        decide
      have hbud : ¬ (neigh_max_probes { n with nud_state := NUD_PROBE, probes := 0 }
          ≤ ({ n with nud_state := NUD_PROBE, probes := 0 } : Neighbour).probes) := by
        unfold neigh_max_probes
        rw [if_pos hcond]
        show ¬ (n.parms.ucast_probes ≤ 0)
        omega
      simp [neigh_timer_handler, timerReeval, hit, hnr, hd, hne, hbud,
        (by decide : NUD_PROBE &&& (NUD_INCOMPLETE ||| NUD_PROBE) ≠ 0),
        (by decide : NUD_PROBE &&& NUD_IN_TIMER ≠ 0)]

/-- Concrete `NUD_DELAY` entry for the amended C7 witness: one unicast
probe configured, delay window elapsed at `now = 100`. -/
def delayEntry : Neighbour :=
  { noneEntry with nud_state := NUD_DELAY,
                   parms := { parmsZero with ucast_probes := 1 } }

theorem timer_reachable_delay_transition_witness :
    ((neigh_timer_handler 100 (fun _ _ => NUD_FAILED) 100 reachEntry).neigh.nud_state
        = NUD_STALE ∧
      (neigh_timer_handler 100 (fun _ _ => NUD_FAILED) 100 reachEntry).neigh.output
        = OutputPath.generic) ∧
    ((neigh_timer_handler 100 (fun _ _ => NUD_FAILED) 100 delayEntry).neigh.nud_state
        = NUD_PROBE ∧
      (neigh_timer_handler 100 (fun _ _ => NUD_FAILED) 100 delayEntry).neigh.probes
        = 1 ∧
      (neigh_timer_handler 100 (fun _ _ => NUD_FAILED) 100 delayEntry).solicited
        = true) := by
  constructor
  · exact ((timer_reachable_delay_transition 100 (fun _ _ => NUD_FAILED) 100
      reachEntry).1 (by decide) (by decide)).2 (by decide)
  · exact ((timer_reachable_delay_transition 100 (fun _ _ => NUD_FAILED) 100
      delayEntry).2 (by decide)).2 (by decide) (by decide)

/-- Helper: if a state has no bit of mask `Y` and mask `X` is contained in
`Y` (in the sense `X &&& Y = X`), it has no bit of `X` either. -/
theorem land_subset_eq_zero {a X Y : Nat} (hXY : X &&& Y = X) (h : a &&& Y = 0) :
    a &&& X = 0 := by
  calc a &&& X = a &&& (X &&& Y) := by rw [hXY]
    _ = a &&& (Y &&& X) := by rw [Nat.land_comm X Y]
    _ = a &&& Y &&& X := by rw [Nat.land_assoc]
    _ = 0 &&& X := by rw [h]
    _ = 0 := Nat.zero_and X

/-- Helper: contrapositive of `land_subset_eq_zero`. -/
theorem land_superset_ne_zero {a X Y : Nat} (hXY : X &&& Y = X) (h : a &&& X ≠ 0) :
    a &&& Y ≠ 0 :=
  fun h0 => h (land_subset_eq_zero hXY h0)

/-- `neigh_del_timer` (neighbour.c:154-162): cancel an armed timer on a
timer-managed entry, releasing the reference the timer held. -/
def neigh_del_timer_m (n : Neighbour) : Neighbour :=
  if n.nud_state &&& NUD_IN_TIMER ≠ 0 ∧ n.timerExpires.isSome then
    { n with timerExpires := none, refcnt := n.refcnt - 1 }
  else n

/-- `neigh_suspect` (neighbour.c:516-526): disable the fast path, install
the generic per-packet output. -/
def neigh_suspect_m (n : Neighbour) : Neighbour :=
  { n with output := OutputPath.generic }

/-- `neigh_connect` (neighbour.c:533-543): enable the fast path. -/
def neigh_connect_m (n : Neighbour) : Neighbour :=
  { n with output := OutputPath.connectedFast }

/-- The `out:` label of `neigh_update` (neighbour.c:935-940): when
`update_isrouter` is set, install or clear the `NTF_ROUTER` bit of the
entry's (8-bit) flags according to `NEIGH_UPDATE_F_ISROUTER`. -/
def applyIsrouter (updIsrouter : Bool) (fl : Nat) (n : Neighbour) : Neighbour :=
  if updIsrouter then
    if fl &&& NEIGH_UPDATE_F_ISROUTER ≠ 0 then
      { n with flags := n.flags ||| NTF_ROUTER }
    else
      { n with flags := n.flags &&& 0x7F }
  else n

/-- The resolution-queue drain loop of `neigh_update`
(neighbour.c:921-933): while the entry is still in a VALID state, dequeue
one packet and transmit it through the installed output function
(modelled as `out`, taking the current state and the packet and returning
the state left behind — the callback may re-enter the state machine).
Returns the final state and the packets transmitted, in dequeue order. -/
def validDrain (out : Nat → Nat → Nat) : Nat → List Nat → Nat × List Nat
  | st, [] => (st, [])
  | st, p :: rest =>
    if st &&& NUD_VALID ≠ 0 then
      let r := validDrain out (out st p) rest
      (r.1, p :: r.2)
    else (st, [])

/-- The override-policy block of `neigh_update` (neighbour.c:870-888).
Inputs: the entry, its old state, the normalized proposed address (value
`lv`, with `same = true` when the C pointer `lladdr` aliases the cached
`neigh->ha` after the normalization of lines 841-861), the requested new
state and the flags.  Returns the effective new state, effective address,
its aliasing, the `update_isrouter` flag, and whether the code jumps
straight to the `out:` label. -/
def updatePolicy (n : Neighbour) (old lv : Nat) (same : Bool) (new0 flags : Nat) :
    Nat × Nat × Bool × Bool × Bool :=
  if old &&& NUD_VALID ≠ 0 then
    if same = false ∧ flags &&& NEIGH_UPDATE_F_OVERRIDE = 0 then
      if flags &&& NEIGH_UPDATE_F_WEAK_OVERRIDE ≠ 0 ∧ old &&& NUD_CONNECTED ≠ 0 then
        (NUD_STALE, n.ha, true, false, false)
      else (new0, lv, same, false, true)
    else
      if same = true ∧ new0 = NUD_STALE ∧
         (flags &&& NEIGH_UPDATE_F_WEAK_OVERRIDE ≠ 0 ∨ old &&& NUD_CONNECTED ≠ 0) then
        (old, lv, same, flags &&& NEIGH_UPDATE_F_OVERRIDE_ISROUTER ≠ 0, false)
      else (new0, lv, same, flags &&& NEIGH_UPDATE_F_OVERRIDE_ISROUTER ≠ 0, false)
  else (new0, lv, same, flags &&& NEIGH_UPDATE_F_OVERRIDE_ISROUTER ≠ 0, false)

/-- Result of `neigh_update`: the updated entry, the error code, the
packets handed to the output function in order, and the notify flag. -/
structure UpdateResult where
  neigh : Neighbour
  err : Int
  sent : List Nat
  notify : Bool
  deriving DecidableEq

/-- The commit phase of `neigh_update` (neighbour.c:890-947), applied
after the override-policy block has produced its decision `pol` (effective
new state, effective address value, aliasing flag, `update_isrouter`,
goto-out): timer re-arm and state change when the state changes, address
write-back with confirmed-stamp demotion when the address changes,
connect/suspect, and the drain of the resolution queue when the entry was
not previously VALID.  `old` is the state read at entry, `n1` the entry
after the `confirmed`/`updated` stamps of lines 863-865. -/
def updateCommit (out : Nat → Nat → Nat) (old : Nat)
    (pol : Nat × Nat × Bool × Bool × Bool) (flags now : Nat)
    (n1 : Neighbour) : UpdateResult :=
  if pol.2.2.2.2 then ⟨n1, 0, [], false⟩
  else
    let new1 := pol.1
    let n2 :=
      if new1 ≠ old then
        let na := neigh_del_timer_m n1
        let nb :=
          if new1 &&& NUD_IN_TIMER ≠ 0 then
            { na with refcnt := na.refcnt + 1,
                      timerExpires := some (now +
                        (if new1 &&& NUD_REACHABLE ≠ 0 then
                          na.parms.reachable_time else 0)) }
          else na
        { nb with nud_state := new1 }
      else n1
    let n3 :=
      if pol.2.2.1 = false then
        let nc := { n2 with ha := pol.2.1 }
        if new1 &&& NUD_CONNECTED = 0 then
          { nc with confirmed := now - 2 * nc.parms.base_reachable_time }
        else nc
      else n2
    if new1 = old then ⟨applyIsrouter pol.2.2.2.1 flags n3, 0, [], !pol.2.2.1⟩
    else
      let n4 := if new1 &&& NUD_CONNECTED ≠ 0 then neigh_connect_m n3
                else neigh_suspect_m n3
      if old &&& NUD_VALID = 0 then
        let d := validDrain out n4.nud_state n4.arp_queue
        ⟨applyIsrouter pol.2.2.2.1 flags
           { n4 with nud_state := d.1, arp_queue := [] }, 0, d.2, !pol.2.2.1⟩
      else ⟨applyIsrouter pol.2.2.2.1 flags n4, 0, [], !pol.2.2.1⟩

/-- `neigh_update` (neighbour.c:807-947).  `addr_len` is
`neigh->dev->addr_len`; `lladdr0` is the proposed link-layer address
(`none` when not supplied); the C pointer comparisons `lladdr ==
neigh->ha` are carried by the `same` Bool produced by the normalization of
lines 841-861.  The `jiffies - (base_reachable_time << 1)` write uses
truncated `Nat` subtraction (the claims do not depend on that value). -/
def neigh_update (out : Nat → Nat → Nat) (addr_len : Nat) (n : Neighbour)
    (lladdr0 : Option Nat) (new0 flags now : Nat) : UpdateResult :=
  let old := n.nud_state
  if flags &&& NEIGH_UPDATE_F_ADMIN = 0 ∧
     old &&& (NUD_NOARP ||| NUD_PERMANENT) ≠ 0 then
    ⟨n, -EPERM, [], false⟩
  else if new0 &&& NUD_VALID = 0 then
    let n1 := neigh_del_timer_m n
    let n2 := if old &&& NUD_CONNECTED ≠ 0 then neigh_suspect_m n1 else n1
    ⟨{ n2 with nud_state := new0 }, 0, [], decide (old &&& NUD_VALID ≠ 0)⟩
  else
    let norm : Option (Nat × Bool) :=
      if addr_len = 0 then some (n.ha, true)
      else
        match lladdr0 with
        | some v =>
          if old &&& NUD_VALID ≠ 0 ∧ v = n.ha then some (n.ha, true)
          else some (v, false)
        | none => if old &&& NUD_VALID = 0 then none else some (n.ha, true)
    match norm with
    | none => ⟨n, -EINVAL, [], false⟩
    | some (lv, same0) =>
      let n1 := { n with
        confirmed := if new0 &&& NUD_CONNECTED ≠ 0 then now else n.confirmed,
        updated := now }
      updateCommit out old (updatePolicy n old lv same0 new0 flags) flags now n1

/-- Helper: whatever the output callback does, the drained packets form an
initial segment of the queue, in order. -/
theorem validDrain_sent_init (out : Nat → Nat → Nat) (st : Nat) (q : List Nat) :
    ∃ t, q = (validDrain out st q).2 ++ t := by
  induction q generalizing st with
  | nil => exact ⟨[], rfl⟩
  | cons p rest ih =>
    unfold validDrain
    split
    · obtain ⟨t, ht⟩ := ih (out st p)
      exact ⟨t, by simp only [List.cons_append]; rw [← ht]⟩
    · exact ⟨p :: rest, rfl⟩

/-- Helper: when the output callback always leaves the entry in a VALID
state and the drain starts in a VALID state, the entire queue is drained
in order. -/
theorem validDrain_all (out : Nat → Nat → Nat)
    (hout : ∀ s p, out s p &&& NUD_VALID ≠ 0) (st : Nat)
    (hst : st &&& NUD_VALID ≠ 0) (q : List Nat) :
    (validDrain out st q).2 = q := by
  induction q generalizing st with
  | nil => rfl
  | cons p rest ih => simp [validDrain, hst, ih (out st p) (hout st p)]

/-- Helper: the override-policy block is a pass-through when the old state
is not VALID. -/
theorem updatePolicy_invalid (n : Neighbour) (lv : Nat) (same : Bool)
    (new0 flags : Nat) (hold : n.nud_state &&& NUD_VALID = 0) :
    updatePolicy n n.nud_state lv same new0 flags =
      (new0, lv, same,
        decide (flags &&& NEIGH_UPDATE_F_OVERRIDE_ISROUTER ≠ 0), false) := by
  unfold updatePolicy
  rw [if_neg (fun hh => hh hold)]

/-- Helper: `neigh_del_timer` leaves the resolution queue alone. -/
theorem neigh_del_timer_m_arp_queue (n : Neighbour) :
    (neigh_del_timer_m n).arp_queue = n.arp_queue := by
  unfold neigh_del_timer_m; split <;> rfl

/-- Helper: `neigh_del_timer` leaves the state alone. -/
theorem neigh_del_timer_m_nud_state (n : Neighbour) :
    (neigh_del_timer_m n).nud_state = n.nud_state := by
  unfold neigh_del_timer_m; split <;> rfl

/-- Helper: `neigh_del_timer` leaves the cached address alone. -/
theorem neigh_del_timer_m_ha (n : Neighbour) :
    (neigh_del_timer_m n).ha = n.ha := by
  unfold neigh_del_timer_m; split <;> rfl

/-- Helper: `neigh_del_timer` leaves the output path alone. -/
theorem neigh_del_timer_m_output (n : Neighbour) :
    (neigh_del_timer_m n).output = n.output := by
  unfold neigh_del_timer_m; split <;> rfl

/-- Helper: `neigh_del_timer` leaves the parameters alone. -/
theorem neigh_del_timer_m_parms (n : Neighbour) :
    (neigh_del_timer_m n).parms = n.parms := by
  unfold neigh_del_timer_m; split <;> rfl

/-- Helper: the `out:` label touches only the flags byte. -/
theorem applyIsrouter_nud_state (b : Bool) (fl : Nat) (n : Neighbour) :
    (applyIsrouter b fl n).nud_state = n.nud_state := by
  unfold applyIsrouter
  split
  · split <;> rfl
  · rfl

/-- Helper: the `out:` label leaves the queue alone. -/
theorem applyIsrouter_arp_queue (b : Bool) (fl : Nat) (n : Neighbour) :
    (applyIsrouter b fl n).arp_queue = n.arp_queue := by
  unfold applyIsrouter
  split
  · split <;> rfl
  · rfl

/-- Helper: the `out:` label leaves the cached address alone. -/
theorem applyIsrouter_ha (b : Bool) (fl : Nat) (n : Neighbour) :
    (applyIsrouter b fl n).ha = n.ha := by
  unfold applyIsrouter
  split
  · split <;> rfl
  · rfl

/-- Helper: the `out:` label leaves the output path alone. -/
theorem applyIsrouter_output (b : Bool) (fl : Nat) (n : Neighbour) :
    (applyIsrouter b fl n).output = n.output := by
  unfold applyIsrouter
  split
  · split <;> rfl
  · rfl

/-- Helper: the `out:` label leaves the confirmed stamp alone. -/
theorem applyIsrouter_confirmed (b : Bool) (fl : Nat) (n : Neighbour) :
    (applyIsrouter b fl n).confirmed = n.confirmed := by
  unfold applyIsrouter
  split
  · split <;> rfl
  · rfl

/-- Helper: commit-phase shape when the state changes and the old state
was not VALID — the queue is drained through the output function from the
new state and then purged. -/
theorem updateCommit_drain (out : Nat → Nat → Nat) (old new1 lv1 : Nat)
    (same1 updIsr : Bool) (flags now : Nat) (n1 : Neighbour)
    (hne : new1 ≠ old) (hold : old &&& NUD_VALID = 0) :
    (updateCommit out old (new1, lv1, same1, updIsr, false) flags now n1).sent =
      (validDrain out new1 n1.arp_queue).2 ∧
    (updateCommit out old
      (new1, lv1, same1, updIsr, false) flags now n1).neigh.arp_queue = [] := by
  unfold updateCommit
  simp only [if_neg Bool.false_ne_true, if_pos hne, if_neg hne, if_pos hold]
  constructor <;>
    split_ifs <;>
      simp [neigh_suspect_m, neigh_connect_m, applyIsrouter_arp_queue,
        neigh_del_timer_m_arp_queue, neigh_del_timer_m_nud_state]

/-- Helper: shape of `neigh_update` when a supplied address moves an entry
from a non-VALID to a VALID state: the queue is drained through
`validDrain` starting at the new state, and then purged. -/
theorem update_shape_drain (out : Nat → Nat → Nat) (addr_len : Nat)
    (n : Neighbour) (v new0 flags now : Nat)
    (hold : n.nud_state &&& NUD_VALID = 0) (hnew : new0 &&& NUD_VALID ≠ 0) :
    (neigh_update out addr_len n (some v) new0 flags now).sent =
      (validDrain out new0 n.arp_queue).2 ∧
    (neigh_update out addr_len n (some v) new0 flags now).neigh.arp_queue = [] := by
  have hgate : ¬ (flags &&& NEIGH_UPDATE_F_ADMIN = 0 ∧
      n.nud_state &&& (NUD_NOARP ||| NUD_PERMANENT) ≠ 0) := by
    intro h
    exact h.2 (land_subset_eq_zero (by decide) hold)
  have hnv : ¬ (new0 &&& NUD_VALID = 0) := hnew
  have hne : new0 ≠ n.nud_state := by
    intro h
    rw [h] at hnew
    exact hnew hold
  have hnorm : ¬ (n.nud_state &&& NUD_VALID ≠ 0 ∧ v = n.ha) := fun h => h.1 hold
  simp only [neigh_update, if_neg hgate, if_neg hnv]
  by_cases haddr : addr_len = 0
  · simp only [if_pos haddr, updatePolicy_invalid n n.ha true new0 flags hold]
    exact updateCommit_drain out n.nud_state new0 n.ha true _ flags now _ hne hold
  · simp only [if_neg haddr, if_neg hnorm,
      updatePolicy_invalid n v false new0 flags hold]
    exact updateCommit_drain out n.nud_state new0 v false _ flags now _ hne hold

/-- C5: when `neigh_update` moves an entry from a non-VALID state to a
VALID state (with a supplied link-layer address), the packets queued on
the entry while it was unresolved are transmitted through the output
function in exactly their enqueue (FIFO) order, for any number of queued
packets: with an output callback that keeps the entry VALID the entire
queue is sent in order; for an arbitrary callback the sent packets are an
initial segment of the queue in order (the drain re-checks on each
iteration that the entry is still VALID) and any remaining packets are
purged, the final queue being empty. -/
theorem update_fifo_delivery (out : Nat → Nat → Nat) (addr_len : Nat)
    (n : Neighbour) (v new0 flags now : Nat)
    (hold : n.nud_state &&& NUD_VALID = 0)
    (hnew : new0 &&& NUD_VALID ≠ 0)
    (hout : ∀ s p, out s p &&& NUD_VALID ≠ 0) :
    (neigh_update out addr_len n (some v) new0 flags now).sent = n.arp_queue ∧
    (neigh_update out addr_len n (some v) new0 flags now).neigh.arp_queue = [] ∧
    (∀ g : Nat → Nat → Nat,
      (∃ t, n.arp_queue =
        (neigh_update g addr_len n (some v) new0 flags now).sent ++ t) ∧
      (neigh_update g addr_len n (some v) new0 flags now).neigh.arp_queue = []) := by
  obtain ⟨e1, e2⟩ := update_shape_drain out addr_len n v new0 flags now hold hnew
  refine ⟨?_, e2, ?_⟩
  · rw [e1, validDrain_all out hout new0 hnew]
  · intro g
    obtain ⟨f1, f2⟩ := update_shape_drain g addr_len n v new0 flags now hold hnew
    refine ⟨?_, f2⟩
    rw [f1]
    exact validDrain_sent_init g new0 n.arp_queue

theorem update_fifo_delivery_witness :
    (neigh_update (fun _ _ => NUD_REACHABLE) 6 incEntry (some 42)
      NUD_REACHABLE 0 50).sent = [1, 2, 3] ∧
    (neigh_update (fun _ _ => NUD_REACHABLE) 6 incEntry (some 42)
      NUD_REACHABLE 0 50).neigh.arp_queue = [] := by
  have h := update_fifo_delivery (fun _ _ => NUD_REACHABLE) 6 incEntry 42
    NUD_REACHABLE 0 50 (by decide) (by decide)
    (fun s p => by show NUD_REACHABLE &&& NUD_VALID ≠ 0; decide)
  exact ⟨h.1.trans (by decide), h.2.1⟩

/-- Helper: the override-policy block in the weak-override demotion case —
old state VALID and CONNECTED, proposed address different, no OVERRIDE
flag, WEAK_OVERRIDE set: keep the cached address, demote to STALE. -/
theorem updatePolicy_weak_demote (n : Neighbour) (v new0 flags : Nat)
    (hvalid : n.nud_state &&& NUD_VALID ≠ 0)
    (hov : flags &&& NEIGH_UPDATE_F_OVERRIDE = 0)
    (hwk : flags &&& NEIGH_UPDATE_F_WEAK_OVERRIDE ≠ 0)
    (hconn : n.nud_state &&& NUD_CONNECTED ≠ 0) :
    updatePolicy n n.nud_state v false new0 flags =
      (NUD_STALE, n.ha, true, false, false) := by
  unfold updatePolicy
  rw [if_pos hvalid, if_pos (And.intro rfl hov), if_pos (And.intro hwk hconn)]

/-- Helper: the override-policy block in the state-retention case — old
state VALID, proposed address aliases the cached one, new state STALE,
WEAK_OVERRIDE or old CONNECTED: reuse the old state. -/
theorem updatePolicy_retain (n : Neighbour) (flags : Nat)
    (hvalid : n.nud_state &&& NUD_VALID ≠ 0)
    (hwc : flags &&& NEIGH_UPDATE_F_WEAK_OVERRIDE ≠ 0 ∨
           n.nud_state &&& NUD_CONNECTED ≠ 0) :
    updatePolicy n n.nud_state n.ha true NUD_STALE flags =
      (n.nud_state, n.ha, true,
        decide (flags &&& NEIGH_UPDATE_F_OVERRIDE_ISROUTER ≠ 0), false) := by
  unfold updatePolicy
  rw [if_pos hvalid, if_neg (fun h => absurd h.1 (by decide)),
    if_pos (And.intro rfl (And.intro rfl hwc))]

/-- Helper: commit-phase shape for the weak-override demotion — address
kept, state set to STALE, fast path suspended, no drain. -/
theorem updateCommit_weak_demote (out : Nat → Nat → Nat) (old : Nat)
    (flags now : Nat) (n1 : Neighbour)
    (hne : NUD_STALE ≠ old) (hvalid : ¬ (old &&& NUD_VALID = 0)) :
    (updateCommit out old (NUD_STALE, n1.ha, true, false, false) flags now
      n1).neigh.nud_state = NUD_STALE ∧
    (updateCommit out old (NUD_STALE, n1.ha, true, false, false) flags now
      n1).neigh.ha = n1.ha ∧
    (updateCommit out old (NUD_STALE, n1.ha, true, false, false) flags now
      n1).neigh.output = OutputPath.generic ∧
    (updateCommit out old (NUD_STALE, n1.ha, true, false, false) flags now
      n1).sent = [] ∧
    (updateCommit out old (NUD_STALE, n1.ha, true, false, false) flags now
      n1).neigh.arp_queue = n1.arp_queue := by
  unfold updateCommit
  simp only [if_neg Bool.false_ne_true, if_pos hne, if_neg hne,
    if_neg (by decide : ¬ (NUD_STALE &&& NUD_IN_TIMER ≠ 0)),
    if_neg (by decide : ¬ ((true : Bool) = false)),
    if_neg (by decide : ¬ (NUD_STALE &&& NUD_CONNECTED ≠ 0)),
    if_neg hvalid]
  simp [applyIsrouter, neigh_suspect_m, neigh_del_timer_m_arp_queue,
    neigh_del_timer_m_ha]

/-- Helper: commit-phase shape for the state-retention case — the entry
keeps its state, address, output path, confirmed stamp and queue; nothing
is drained. -/
theorem updateCommit_retain (out : Nat → Nat → Nat) (old lv : Nat)
    (updIsr : Bool) (flags now : Nat) (n1 : Neighbour) :
    (updateCommit out old (old, lv, true, updIsr, false) flags now
      n1).neigh.nud_state = n1.nud_state ∧
    (updateCommit out old (old, lv, true, updIsr, false) flags now
      n1).neigh.ha = n1.ha ∧
    (updateCommit out old (old, lv, true, updIsr, false) flags now
      n1).neigh.output = n1.output ∧
    (updateCommit out old (old, lv, true, updIsr, false) flags now
      n1).sent = [] ∧
    (updateCommit out old (old, lv, true, updIsr, false) flags now
      n1).neigh.arp_queue = n1.arp_queue ∧
    (updateCommit out old (old, lv, true, updIsr, false) flags now
      n1).neigh.confirmed = n1.confirmed := by
  unfold updateCommit
  simp only [if_neg Bool.false_ne_true,
    if_neg (fun h : ¬ old = old => h rfl),
    if_neg (by decide : ¬ ((true : Bool) = false)),
    if_pos (rfl : old = old)]
  exact ⟨applyIsrouter_nud_state updIsr flags n1, applyIsrouter_ha updIsr flags n1,
    applyIsrouter_output updIsr flags n1, rfl,
    applyIsrouter_arp_queue updIsr flags n1, applyIsrouter_confirmed updIsr flags n1⟩

/-- C8: weak-override semantics of `neigh_update`.  First part: on an
entry whose old state is VALID and CONNECTED (not admin-protected), when
the proposed address differs from the cached one, the OVERRIDE flag is
absent and WEAK_OVERRIDE is present, the cached address is kept and the
state is demoted to `NUD_STALE` (fast path suspended), with no queue
drain.  Second part: when the proposed address equals the cached one and
the new state is `NUD_STALE`, a VALID entry with WEAK_OVERRIDE set or
previously CONNECTED retains its old state (`new` is set to `old`), and
no further state change, address change, output change, confirmed-stamp
change or queue drain occurs. -/
theorem update_weak_override (out : Nat → Nat → Nat) (addr_len : Nat)
    (n : Neighbour) (v new0 flags now : Nat) :
    ((addr_len ≠ 0 → v ≠ n.ha → n.nud_state &&& NUD_CONNECTED ≠ 0 →
      n.nud_state &&& (NUD_NOARP ||| NUD_PERMANENT) = 0 →
      new0 &&& NUD_VALID ≠ 0 → flags &&& NEIGH_UPDATE_F_OVERRIDE = 0 →
      flags &&& NEIGH_UPDATE_F_WEAK_OVERRIDE ≠ 0 →
      (neigh_update out addr_len n (some v) new0 flags now).neigh.ha = n.ha ∧
      (neigh_update out addr_len n (some v) new0 flags now).neigh.nud_state =
        NUD_STALE ∧
      (neigh_update out addr_len n (some v) new0 flags now).neigh.output =
        OutputPath.generic ∧
      (neigh_update out addr_len n (some v) new0 flags now).sent = [] ∧
      (neigh_update out addr_len n (some v) new0 flags now).neigh.arp_queue =
        n.arp_queue) ∧
     (addr_len ≠ 0 → v = n.ha → n.nud_state &&& NUD_VALID ≠ 0 →
      (flags &&& NEIGH_UPDATE_F_ADMIN ≠ 0 ∨
        n.nud_state &&& (NUD_NOARP ||| NUD_PERMANENT) = 0) →
      (flags &&& NEIGH_UPDATE_F_WEAK_OVERRIDE ≠ 0 ∨
        n.nud_state &&& NUD_CONNECTED ≠ 0) →
      (neigh_update out addr_len n (some v) NUD_STALE flags now).neigh.nud_state =
        n.nud_state ∧
      (neigh_update out addr_len n (some v) NUD_STALE flags now).neigh.ha =
        n.ha ∧
      (neigh_update out addr_len n (some v) NUD_STALE flags now).neigh.output =
        n.output ∧
      (neigh_update out addr_len n (some v) NUD_STALE flags now).sent = [] ∧
      (neigh_update out addr_len n (some v) NUD_STALE flags now).neigh.arp_queue =
        n.arp_queue ∧
      (neigh_update out addr_len n (some v) NUD_STALE flags now).neigh.confirmed =
        n.confirmed)) := by
  constructor
  · intro haddr hv hconn hnp hnew hov hwk
    have hvalid : n.nud_state &&& NUD_VALID ≠ 0 :=
      land_superset_ne_zero (by decide) hconn
    have hgate : ¬ (flags &&& NEIGH_UPDATE_F_ADMIN = 0 ∧
        n.nud_state &&& (NUD_NOARP ||| NUD_PERMANENT) ≠ 0) := fun h => h.2 hnp
    have hnv : ¬ (new0 &&& NUD_VALID = 0) := hnew
    have hnorm : ¬ (n.nud_state &&& NUD_VALID ≠ 0 ∧ v = n.ha) := fun h => hv h.2
    have hne : NUD_STALE ≠ n.nud_state := by
      intro h
      exact absurd hconn (by rw [← h]; decide)
    have hred : neigh_update out addr_len n (some v) new0 flags now =
        updateCommit out n.nud_state (NUD_STALE, n.ha, true, false, false)
          flags now
          { n with confirmed := if new0 &&& NUD_CONNECTED ≠ 0 then now
                     else n.confirmed,
                   updated := now } := by
      simp only [neigh_update, if_neg hgate, if_neg hnv, if_neg haddr,
        if_neg hnorm, updatePolicy_weak_demote n v new0 flags hvalid hov hwk hconn]
    rw [hred]
    have h := updateCommit_weak_demote out n.nud_state flags now
      { n with confirmed := if new0 &&& NUD_CONNECTED ≠ 0 then now
                 else n.confirmed,
               updated := now } hne hvalid
    exact ⟨h.2.1, h.1, h.2.2.1, h.2.2.2.1, h.2.2.2.2⟩
  · intro haddr hv hvalid hadm hwc
    have hgate : ¬ (flags &&& NEIGH_UPDATE_F_ADMIN = 0 ∧
        n.nud_state &&& (NUD_NOARP ||| NUD_PERMANENT) ≠ 0) := by
      intro h
      rcases hadm with ha2 | hnp
      · exact ha2 h.1
      · exact h.2 hnp
    have hnv : ¬ (NUD_STALE &&& NUD_VALID = 0) := by decide
    have hnorm : n.nud_state &&& NUD_VALID ≠ 0 ∧ v = n.ha := ⟨hvalid, hv⟩
    have hred : neigh_update out addr_len n (some v) NUD_STALE flags now =
        updateCommit out n.nud_state
          (n.nud_state, n.ha, true,
            decide (flags &&& NEIGH_UPDATE_F_OVERRIDE_ISROUTER ≠ 0), false)
          flags now
          { n with confirmed := if NUD_STALE &&& NUD_CONNECTED ≠ 0 then now
                     else n.confirmed,
                   updated := now } := by
      simp only [neigh_update, if_neg hgate, if_neg hnv, if_neg haddr,
        if_pos hnorm, updatePolicy_retain n flags hvalid hwc]
    rw [hred]
    exact updateCommit_retain out n.nud_state n.ha
      (decide (flags &&& NEIGH_UPDATE_F_OVERRIDE_ISROUTER ≠ 0)) flags now
      { n with confirmed := if NUD_STALE &&& NUD_CONNECTED ≠ 0 then now
                 else n.confirmed,
               updated := now }

theorem update_weak_override_witness :
    ((neigh_update (fun _ _ => NUD_REACHABLE) 6 reachEntry (some 5)
        NUD_REACHABLE NEIGH_UPDATE_F_WEAK_OVERRIDE 50).neigh.ha = reachEntry.ha ∧
     (neigh_update (fun _ _ => NUD_REACHABLE) 6 reachEntry (some 5)
        NUD_REACHABLE NEIGH_UPDATE_F_WEAK_OVERRIDE 50).neigh.nud_state =
       NUD_STALE) ∧
    ((neigh_update (fun _ _ => NUD_REACHABLE) 6 reachEntry (some 0)
        NUD_STALE NEIGH_UPDATE_F_WEAK_OVERRIDE 50).neigh.nud_state =
       reachEntry.nud_state ∧
     (neigh_update (fun _ _ => NUD_REACHABLE) 6 reachEntry (some 0)
        NUD_STALE NEIGH_UPDATE_F_WEAK_OVERRIDE 50).sent = []) := by
  constructor
  · have h := (update_weak_override (fun _ _ => NUD_REACHABLE) 6 reachEntry 5
      NUD_REACHABLE NEIGH_UPDATE_F_WEAK_OVERRIDE 50).1 (by decide) (by decide)
      (by decide) (by decide) (by decide) (by decide) (by decide)
    exact ⟨h.1, h.2.1⟩
  · have h := (update_weak_override (fun _ _ => NUD_REACHABLE) 6 reachEntry 0
      NUD_STALE NEIGH_UPDATE_F_WEAK_OVERRIDE 50).2 (by decide) (by decide)
      (by decide) (Or.inr (by decide)) (Or.inl (by decide))
    exact ⟨h.1, h.2.2.2.1⟩

/-- A neighbour table (`struct neigh_table`): the hash bucket array
(modelled as a function from bucket index to chain; well-formed tables
populate only indices `0..NEIGH_HASHMASK`), the entry count, the three GC
thresholds, the last forced-flush stamp, the default parameter block and
the protocol hash callback. -/
structure NTable where
  buckets : Nat → List Neighbour
  entries : Nat
  gc_thresh1 : Nat
  gc_thresh2 : Nat
  gc_thresh3 : Nat
  last_flush : Nat
  parms : NeighParms
  hash : Nat → Nat → Nat

/-- The discard test of `neigh_forced_gc` (neighbour.c:132-136): nobody
else refers to the entry (refcnt exactly 1, the table's own reference),
it is not PERMANENT, and it is not an INCOMPLETE entry still within its
retransmit-time grace window. -/
def forced_gc_discard (now : Nat) (e : Neighbour) : Prop :=
  e.refcnt = 1 ∧ e.nud_state &&& NUD_PERMANENT = 0 ∧
    (e.nud_state ≠ NUD_INCOMPLETE ∨ e.used + e.parms.retrans_time < now)

instance (now : Nat) (e : Neighbour) : Decidable (forced_gc_discard now e) := by
  unfold forced_gc_discard; infer_instance

/-- `neigh_forced_gc` (neighbour.c:111-152): walk every bucket, unlink
(marking dead) every discardable entry; each such entry has refcnt 1, so
the release that follows destroys it and decrements the entry count.
Returns the new table (with `last_flush := now`), whether anything was
reclaimed (the `shrunk` result), and the reclaimed entries. -/
def neigh_forced_gc (now : Nat) (tbl : NTable) : NTable × Bool × List Neighbour :=
  let removed := ((List.range (NEIGH_HASHMASK + 1)).map
    (fun i => (tbl.buckets i).filter fun e => decide (forced_gc_discard now e))).flatten
  ({ tbl with
      buckets := fun i =>
        if i < NEIGH_HASHMASK + 1 then
          (tbl.buckets i).filter fun e => !decide (forced_gc_discard now e)
        else tbl.buckets i,
      entries := tbl.entries - removed.length,
      last_flush := now },
   !removed.isEmpty,
   removed.map fun e => { e with dead := true })

/-- One entry step of the `neigh_periodic_timer` sweep
(neighbour.c:570-593): PERMANENT or timer-managed entries are skipped
untouched; otherwise `used` is first advanced to `confirmed` if older,
and the entry is reclaimed (`none`) when it carries only the table's
reference and is FAILED or has exceeded `gc_staletime` since last use. -/
def periodicSweepEntry (now : Nat) (e : Neighbour) : Option Neighbour :=
  if e.nud_state &&& (NUD_PERMANENT ||| NUD_IN_TIMER) ≠ 0 then some e
  else
    let e1 := if e.used < e.confirmed then { e with used := e.confirmed } else e
    if e1.refcnt = 1 ∧
       (e1.nud_state = NUD_FAILED ∨ e1.used + e1.parms.gc_staletime < now) then
      none
    else some e1

/-- The reclamation part of `neigh_periodic_timer` (neighbour.c:545-602);
the `reachable_time` re-randomisation of lines 558-564 touches only
parameter blocks and is not modelled.  Returns the swept table and the
reclaimed (dead-marked) entries. -/
def neigh_periodic_sweep (now : Nat) (tbl : NTable) : NTable × List Neighbour :=
  let removed := ((List.range (NEIGH_HASHMASK + 1)).map
    (fun i => (tbl.buckets i).filter
      fun e => decide (periodicSweepEntry now e = none))).flatten
  ({ tbl with
      buckets := fun i =>
        if i < NEIGH_HASHMASK + 1 then
          (tbl.buckets i).filterMap (periodicSweepEntry now)
        else tbl.buckets i,
      entries := tbl.entries - removed.length },
   removed.map fun e => { e with dead := true })

/-- Helper: an entry the periodic sweep reclaims has only the table's
reference, is not PERMANENT, and (being outside `NUD_IN_TIMER`) is never
INCOMPLETE. -/
theorem periodicSweepEntry_none (now : Nat) (e : Neighbour)
    (h : periodicSweepEntry now e = none) :
    e.refcnt = 1 ∧ e.nud_state &&& NUD_PERMANENT = 0 ∧
      e.nud_state ≠ NUD_INCOMPLETE := by
  unfold periodicSweepEntry at h
  by_cases h1 : e.nud_state &&& (NUD_PERMANENT ||| NUD_IN_TIMER) ≠ 0
  · rw [if_pos h1] at h
    exact absurd h (by simp)
  · rw [if_neg h1] at h
    have h1z : e.nud_state &&& (NUD_PERMANENT ||| NUD_IN_TIMER) = 0 := by
      by_contra hc
      exact h1 hc
    have hperm : e.nud_state &&& NUD_PERMANENT = 0 :=
      land_subset_eq_zero (by decide) h1z
    have hinc : e.nud_state ≠ NUD_INCOMPLETE := by
      intro hh
      rw [hh] at h1z
      exact absurd h1z (by decide)
    simp only at h
    split at h
    · split at h
      · rename_i hcond
        exact ⟨hcond.1, hperm, hinc⟩
      · exact absurd h (by simp)
    · split at h
      · rename_i hcond
        exact ⟨hcond.1, hperm, hinc⟩
      · exact absurd h (by simp)

/-- C6: GC safety.  Every entry `neigh_forced_gc` unlinks (marks dead and
releases) has reference count exactly 1, is not PERMANENT, and is not an
INCOMPLETE entry still within its `used + retrans_time` grace window; and
every entry the `neigh_periodic_timer` sweep reclaims has reference count
exactly 1, is not PERMANENT, and is never INCOMPLETE at all (INCOMPLETE
entries are timer-managed and hence skipped), so in particular no entry
with a live external reference (refcnt > 1) is ever reclaimed by either
collector. -/
theorem gc_safety (tbl : NTable) (now : Nat) :
    (∀ e ∈ (neigh_forced_gc now tbl).2.2,
      e.refcnt = 1 ∧ e.nud_state &&& NUD_PERMANENT = 0 ∧
      (e.nud_state ≠ NUD_INCOMPLETE ∨ e.used + e.parms.retrans_time < now) ∧
      e.dead = true) ∧
    (∀ e ∈ (neigh_periodic_sweep now tbl).2,
      e.refcnt = 1 ∧ e.nud_state &&& NUD_PERMANENT = 0 ∧
      e.nud_state ≠ NUD_INCOMPLETE ∧ e.dead = true) := by
  constructor
  · intro e he
    simp only [neigh_forced_gc, List.mem_map] at he
    obtain ⟨a, ha, rfl⟩ := he
    simp only [List.mem_flatten, List.mem_map] at ha
    obtain ⟨l, ⟨i, hi, rfl⟩, hal⟩ := ha
    have hd := of_decide_eq_true (List.mem_filter.mp hal).2
    exact ⟨hd.1, hd.2.1, hd.2.2, rfl⟩
  · intro e he
    simp only [neigh_periodic_sweep, List.mem_map] at he
    obtain ⟨a, ha, rfl⟩ := he
    simp only [List.mem_flatten, List.mem_map] at ha
    obtain ⟨l, ⟨i, hi, rfl⟩, hal⟩ := ha
    have hd := periodicSweepEntry_none now a
      (of_decide_eq_true (List.mem_filter.mp hal).2)
    exact ⟨hd.1, hd.2.1, hd.2.2, rfl⟩

/-- Concrete reclaimable entry: STALE, long unused, only the table's
reference. -/
def staleEntry : Neighbour :=
  { noneEntry with nud_state := NUD_STALE, refcnt := 1 }

/-- The reclaimable entry as it appears in the GC's removed list. -/
def staleEntryDead : Neighbour := { staleEntry with dead := true }

/-- Concrete pinned entry: externally referenced (refcnt 2). -/
def heldEntry : Neighbour :=
  { noneEntry with nud_state := NUD_STALE, refcnt := 2 }

/-- Concrete table holding one reclaimable and two pinned entries, with
hard threshold `gc_thresh3 = 1`. -/
def gcTable : NTable :=
  { buckets := fun i => if i = 0 then [staleEntry, heldEntry, heldEntry] else [],
    entries := 3, gc_thresh1 := 1, gc_thresh2 := 0, gc_thresh3 := 1,
    last_flush := 0, parms := parmsZero, hash := fun k d => k + d }

theorem gc_safety_witness :
    staleEntryDead ∈ (neigh_forced_gc 1000 gcTable).2.2 ∧
    (staleEntryDead.refcnt = 1 ∧
     staleEntryDead.nud_state &&& NUD_PERMANENT = 0 ∧
     (staleEntryDead.nud_state ≠ NUD_INCOMPLETE ∨
       staleEntryDead.used + staleEntryDead.parms.retrans_time < 1000) ∧
     staleEntryDead.dead = true) :=
  ⟨by decide, (gc_safety gcTable 1000).1 staleEntryDead (by decide)⟩

/-- The entry construction part of `neigh_alloc` (neighbour.c:264-286):
`kmem_cache_alloc` may fail (`memOk = false`); on success the fresh entry
is zeroed, starts in `NUD_NONE` with a blackhole output and the default
parameters, holds one reference, is marked dead (not yet linked), and
bumps the table's entry count. -/
def allocFinish (memOk : Bool) (now : Nat) (tbl : NTable) :
    NTable × Option Neighbour :=
  if memOk then
    ({ tbl with entries := tbl.entries + 1 },
     some { key := 0, dev := 0, nud_state := NUD_NONE, probes := 0,
            confirmed := 0, used := now, updated := now, dead := true,
            refcnt := 1, flags := 0, ha := 0, arp_queue := [],
            output := OutputPath.blackhole, timerExpires := none,
            parms := tbl.parms })
  else (tbl, none)

/-- `neigh_alloc` (neighbour.c:251-287): when the entry count exceeds
`gc_thresh3`, or exceeds `gc_thresh2` with the last forced flush more
than `5*HZ` ago, run forced GC first; if that reclaimed nothing and the
count still exceeds `gc_thresh3`, fail without allocating. -/
def neigh_alloc (hz : Nat) (memOk : Bool) (now : Nat) (tbl : NTable) :
    NTable × Option Neighbour :=
  if tbl.gc_thresh3 < tbl.entries ∨
     (tbl.gc_thresh2 < tbl.entries ∧ tbl.last_flush + 5 * hz < now) then
    let g := neigh_forced_gc now tbl
    if g.2.1 = false ∧ g.1.gc_thresh3 < g.1.entries then (g.1, none)
    else allocFinish memOk now g.1
  else allocFinish memOk now tbl

/-- C9 counterexample: `gcTable` has `gc_thresh3 = 1` and 3 entries, one
of them reclaimable.  At allocation the forced GC it triggers reclaims
that one entry, the count (2) still exceeds `gc_thresh3` (1), yet
allocation succeeds: the code fails only when forced GC reclaimed nothing
(`!neigh_forced_gc(tbl) && entries > gc_thresh3`, neighbour.c:259-261),
contradicting the claim that allocation fails whenever the count still
exceeds `gc_thresh3` after forced collection. -/
theorem alloc_hard_limit_counterexample :
    gcTable.gc_thresh3 < (neigh_forced_gc 1000 gcTable).1.entries ∧
    (neigh_alloc 100 true 1000 gcTable).2.isSome = true := by decide

/-- C9 (amended): with memory available, `neigh_alloc` returns no entry
exactly when the forced-GC trigger condition held (count above
`gc_thresh3`, or above `gc_thresh2` with the last flush more than `5*HZ`
ago), the forced collection it ran reclaimed nothing, and the count still
exceeds `gc_thresh3` after it. -/
theorem alloc_hard_limit (hz now : Nat) (tbl : NTable) :
    (neigh_alloc hz true now tbl).2 = none ↔
      ((tbl.gc_thresh3 < tbl.entries ∨
        (tbl.gc_thresh2 < tbl.entries ∧ tbl.last_flush + 5 * hz < now)) ∧
       (neigh_forced_gc now tbl).2.1 = false ∧
       (neigh_forced_gc now tbl).1.gc_thresh3 <
         (neigh_forced_gc now tbl).1.entries) := by
  by_cases htrig : tbl.gc_thresh3 < tbl.entries ∨
      (tbl.gc_thresh2 < tbl.entries ∧ tbl.last_flush + 5 * hz < now)
  · by_cases hc : (neigh_forced_gc now tbl).2.1 = false ∧
        (neigh_forced_gc now tbl).1.gc_thresh3 < (neigh_forced_gc now tbl).1.entries
    · simp [neigh_alloc, if_pos htrig, if_pos hc, htrig, hc.1, hc.2]
    · simp only [neigh_alloc, if_pos htrig, if_neg hc, allocFinish, if_pos rfl]
      constructor
      · intro h
        exact absurd h (by simp)
      · intro h
        exact absurd (And.intro h.2.1 h.2.2) hc
  · simp only [neigh_alloc, if_neg htrig, allocFinish, if_pos rfl]
    constructor
    · intro h
      exact absurd h (by simp)
    · intro h
      exact absurd h.1 htrig

/-- Concrete table where nothing is reclaimable (all entries externally
referenced) and the count exceeds the hard threshold. -/
def gcTable2 : NTable :=
  { gcTable with
      buckets := fun i => if i = 0 then [heldEntry, heldEntry, heldEntry] else [] }

theorem alloc_hard_limit_witness :
    (neigh_alloc 100 true 1000 gcTable2).2 = none :=
  (alloc_hard_limit 100 1000 gcTable2).mpr
    ⟨Or.inl (by decide), by decide, by decide⟩

/-- The duplicate re-check scan of `neigh_create` (neighbour.c:347-353):
look for an entry with the same device and key in the bucket; when found,
`neigh_hold` it and return it together with the bucket as the table then
sees it (the hold is visible through the shared entry). -/
def bucketScanHold (key dev : Nat) : List Neighbour →
    Option (Neighbour × List Neighbour)
  | [] => none
  | e :: rest =>
    if e.dev = dev ∧ e.key = key then
      some ({ e with refcnt := e.refcnt + 1 },
            { e with refcnt := e.refcnt + 1 } :: rest)
    else
      match bucketScanHold key dev rest with
      | some (f, rest1) => some (f, e :: rest1)
      | none => none

/-- `neigh_create` (neighbour.c:307-369): allocate (possibly triggering
forced GC and failing on the hard limit), run the protocol constructor
and the device setup (abstracted as success flags; on failure the new
entry is released, which destroys it — it is dead with refcnt 1 — and
drops the entry count; the concrete error codes of the callbacks are
collapsed to `EINVAL`), check the parameter block was not concurrently
marked dead, then under the table write lock re-check the bucket for a
racing duplicate: if one exists, return it held and release the new
entry; otherwise link the new entry at the bucket head, clear its dead
flag, take the table's reference, and return it. -/
def neigh_create (hz : Nat) (memOk ctorOk setupOk : Bool) (now : Nat)
    (tbl : NTable) (key dev : Nat) : NTable × Except Int Neighbour :=
  match neigh_alloc hz memOk now tbl with
  | (tbl1, none) => (tbl1, Except.error (-ENOBUFS))
  | (tbl1, some n0) =>
    if ctorOk = false then
      ({ tbl1 with entries := tbl1.entries - 1 }, Except.error (-EINVAL))
    else if setupOk = false then
      ({ tbl1 with entries := tbl1.entries - 1 }, Except.error (-EINVAL))
    else if tbl1.parms.dead then
      ({ tbl1 with entries := tbl1.entries - 1 }, Except.error (-EINVAL))
    else
      match bucketScanHold key dev
          (tbl1.buckets (tbl.hash key dev &&& NEIGH_HASHMASK)) with
      | some (f, newBucket) =>
        ({ tbl1 with
            buckets := fun i =>
              if i = tbl.hash key dev &&& NEIGH_HASHMASK then newBucket
              else tbl1.buckets i,
            entries := tbl1.entries - 1 },
         Except.ok f)
      | none =>
        ({ tbl1 with
            buckets := fun i =>
              if i = tbl.hash key dev &&& NEIGH_HASHMASK then
                { n0 with
                    key := key, dev := dev,
                    confirmed := now - 2 * n0.parms.base_reachable_time,
                    dead := false, refcnt := n0.refcnt + 1 } ::
                  tbl1.buckets (tbl.hash key dev &&& NEIGH_HASHMASK)
              else tbl1.buckets i },
         Except.ok { n0 with
             key := key, dev := dev,
             confirmed := now - 2 * n0.parms.base_reachable_time,
             dead := false, refcnt := n0.refcnt + 1 })

/-- Table well-formedness: every linked entry sits in the bucket its
(key, device) hash selects, and is live (`dead = false`). -/
def tblWF (tbl : NTable) : Prop :=
  ∀ i, ∀ e ∈ tbl.buckets i,
    tbl.hash e.key e.dev &&& NEIGH_HASHMASK = i ∧ e.dead = false

/-- The uniqueness invariant: each bucket holds at most one live entry
per (key, device) pair.  Together with `tblWF` (entries for a pair can
only sit in that pair's hash bucket, and all linked entries are live)
this is global uniqueness of live entries per (table, key, device). -/
def uniqueLive (tbl : NTable) : Prop :=
  ∀ i k d, ((tbl.buckets i).countP fun e => e.key == k && e.dev == d) ≤ 1

/-- Helper: a failed duplicate scan means no entry in the bucket matches
the (key, device) pair. -/
theorem bucketScanHold_none (key dev : Nat) :
    ∀ l : List Neighbour, bucketScanHold key dev l = none →
      ∀ e ∈ l, ¬ (e.dev = dev ∧ e.key = key) := by
  intro l
  induction l with
  | nil => intro _ e he; cases he
  | cons a rest ih =>
    intro h e he
    unfold bucketScanHold at h
    split at h
    · exact absurd h (by simp)
    · rename_i hcond
      rcases List.mem_cons.mp he with rfl | hr
      · exact hcond
      · cases hs : bucketScanHold key dev rest with
        | none => exact ih hs e hr
        | some p =>
          rw [hs] at h
          exact absurd h (by simp)

/-- Helper: a successful duplicate scan decomposes the bucket around the
first matching entry, which is returned with its reference bumped, the
bucket keeping its other elements in place. -/
theorem bucketScanHold_some (key dev : Nat) :
    ∀ (l : List Neighbour) (f : Neighbour) (l1 : List Neighbour),
      bucketScanHold key dev l = some (f, l1) →
      ∃ pre e post,
        l = pre ++ e :: post ∧
        l1 = pre ++ { e with refcnt := e.refcnt + 1 } :: post ∧
        f = { e with refcnt := e.refcnt + 1 } ∧
        e.dev = dev ∧ e.key = key := by
  intro l
  induction l with
  | nil => intro f l1 h; cases h
  | cons a rest ih =>
    intro f l1 h
    unfold bucketScanHold at h
    split at h
    · rename_i hcond
      injection h with h2
      have hf : f = { a with refcnt := a.refcnt + 1 } :=
        (congrArg Prod.fst h2).symm
      have hl : l1 = { a with refcnt := a.refcnt + 1 } :: rest :=
        (congrArg Prod.snd h2).symm
      exact ⟨[], a, rest, rfl, hl, hf, hcond.1, hcond.2⟩
    · cases hs : bucketScanHold key dev rest with
      | none =>
        rw [hs] at h
        exact absurd h (by simp)
      | some p =>
        rw [hs] at h
        obtain ⟨f2, l2⟩ := p
        injection h with h2
        have hf : f = f2 := (congrArg Prod.fst h2).symm
        have hl : l1 = a :: l2 := (congrArg Prod.snd h2).symm
        obtain ⟨pre, e, post, e1, e2, e3, e4, e5⟩ := ih f2 l2 hs
        refine ⟨a :: pre, e, post, ?_, ?_, ?_, e4, e5⟩
        · rw [List.cons_append, ← e1]
        · rw [hl, List.cons_append, ← e2]
        · rw [hf, e3]

/-- Helper: the two invariants transport along pointwise bucket
shrinking with the same hash callback. -/
theorem tblWF_of_sub (tbl tbl1 : NTable) (hh : tbl1.hash = tbl.hash)
    (hb : ∀ i, ∀ e ∈ tbl1.buckets i, e ∈ tbl.buckets i) (hwf : tblWF tbl) :
    tblWF tbl1 := by
  intro i e he
  rw [hh]
  exact hwf i e (hb i e he)

/-- Helper: per-bucket counts only drop along sublists. -/
theorem uniqueLive_of_sub (tbl tbl1 : NTable)
    (hb : ∀ i, (tbl1.buckets i).Sublist (tbl.buckets i)) (huq : uniqueLive tbl) :
    uniqueLive tbl1 :=
  fun i k d => le_trans ((hb i).countP_le _) (huq i k d)

/-- Helper: forced GC only filters buckets. -/
theorem neigh_forced_gc_buckets_sub (now : Nat) (tbl : NTable) (i : Nat) :
    ((neigh_forced_gc now tbl).1.buckets i).Sublist (tbl.buckets i) := by
  simp only [neigh_forced_gc]
  split
  · exact List.filter_sublist _
  · exact List.Sublist.refl _

/-- Helper: allocation itself does not touch the buckets. -/
theorem allocFinish_buckets (memOk : Bool) (now : Nat) (tbl : NTable) :
    (allocFinish memOk now tbl).1.buckets = tbl.buckets := by
  unfold allocFinish; split <;> rfl

/-- Helper: `neigh_alloc` only ever shrinks buckets. -/
theorem neigh_alloc_buckets_sub (hz : Nat) (memOk : Bool) (now : Nat)
    (tbl : NTable) (i : Nat) :
    ((neigh_alloc hz memOk now tbl).1.buckets i).Sublist (tbl.buckets i) := by
  simp only [neigh_alloc]
  split
  · split
    · exact neigh_forced_gc_buckets_sub now tbl i
    · rw [allocFinish_buckets]
      exact neigh_forced_gc_buckets_sub now tbl i
  · rw [allocFinish_buckets]

/-- Helper: `neigh_alloc` keeps the hash callback. -/
theorem neigh_alloc_hash (hz : Nat) (memOk : Bool) (now : Nat) (tbl : NTable) :
    (neigh_alloc hz memOk now tbl).1.hash = tbl.hash := by
  simp only [neigh_alloc]
  split
  · split
    · rfl
    · unfold allocFinish; split <;> rfl
  · unfold allocFinish; split <;> rfl

/-- Helper: `neigh_alloc` keeps the default parameter block. -/
theorem neigh_alloc_parms (hz : Nat) (memOk : Bool) (now : Nat) (tbl : NTable) :
    (neigh_alloc hz memOk now tbl).1.parms = tbl.parms := by
  simp only [neigh_alloc]
  split
  · split
    · rfl
    · unfold allocFinish; split <;> rfl
  · unfold allocFinish; split <;> rfl

/-- Helper: below both GC thresholds, allocation with memory available is
a pure entry-count bump returning a fresh dead entry. -/
theorem neigh_alloc_noGC (hz now : Nat) (tbl : NTable)
    (h2 : tbl.entries ≤ tbl.gc_thresh2) (h3 : tbl.entries ≤ tbl.gc_thresh3) :
    neigh_alloc hz true now tbl =
      ({ tbl with entries := tbl.entries + 1 },
       some { key := 0, dev := 0, nud_state := NUD_NONE, probes := 0,
              confirmed := 0, used := now, updated := now, dead := true,
              refcnt := 1, flags := 0, ha := 0, arp_queue := [],
              output := OutputPath.blackhole, timerExpires := none,
              parms := tbl.parms }) := by
  have htrig : ¬ (tbl.gc_thresh3 < tbl.entries ∨
      (tbl.gc_thresh2 < tbl.entries ∧ tbl.last_flush + 5 * hz < now)) := by
    rintro (h | ⟨h, -⟩) <;> omega
  simp [neigh_alloc, allocFinish, htrig]

/-- Helper: replacing a bucket by its duplicate-scan rewrite (the same
entries, one with its reference count bumped) preserves both
invariants. -/
theorem dupPath_invariants (t : NTable) (key dev hv ent : Nat)
    (f : Neighbour) (nb : List Neighbour)
    (hscan : bucketScanHold key dev (t.buckets hv) = some (f, nb))
    (hwf : tblWF t) (huq : uniqueLive t) :
    tblWF { t with
            buckets := fun i => if i = hv then nb else t.buckets i,
            entries := ent } ∧
    uniqueLive { t with
                 buckets := fun i => if i = hv then nb else t.buckets i,
                 entries := ent } := by
  obtain ⟨pre, e0, post, e1, e2, e3, e4, e5⟩ :=
    bucketScanHold_some key dev (t.buckets hv) f nb hscan
  constructor
  · intro i e he
    have he2 : e ∈ (if i = hv then nb else t.buckets i) := he
    show t.hash e.key e.dev &&& NEIGH_HASHMASK = i ∧ e.dead = false
    by_cases hi : i = hv
    · subst hi
      rw [if_pos rfl, e2] at he2
      rcases List.mem_append.mp he2 with hp | hc
      · exact hwf i e (by rw [e1]; exact List.mem_append_left _ hp)
      · rcases List.mem_cons.mp hc with rfl | hpost
        · have h0 := hwf i e0
            (by rw [e1]; exact List.mem_append_right _ (List.mem_cons_self _ _))
          exact ⟨h0.1, h0.2⟩
        · exact hwf i e
            (by rw [e1]; exact List.mem_append_right _ (List.mem_cons_of_mem _ hpost))
    · rw [if_neg hi] at he2
      exact hwf i e he2
  · intro i k d
    show ((if i = hv then nb else t.buckets i).countP
      fun e => e.key == k && e.dev == d) ≤ 1
    by_cases hi : i = hv
    · subst hi
      rw [if_pos rfl, e2]
      have hcnt : ((pre ++ { e0 with refcnt := e0.refcnt + 1 } :: post).countP
          fun e => e.key == k && e.dev == d) =
          ((pre ++ e0 :: post).countP fun e => e.key == k && e.dev == d) := by
        simp [List.countP_append, List.countP_cons]
      rw [hcnt, ← e1]
      exact huq i k d
    · rw [if_neg hi]
      exact huq i k d

/-- Helper: linking a fresh live entry for a (key, device) pair whose
under-lock scan found no duplicate preserves both invariants. -/
theorem linkPath_invariants (t : NTable) (key dev hv : Nat) (nl : Neighbour)
    (hhv : t.hash key dev &&& NEIGH_HASHMASK = hv)
    (hscan : bucketScanHold key dev (t.buckets hv) = none)
    (hk : nl.key = key) (hd : nl.dev = dev) (hdead : nl.dead = false)
    (hwf : tblWF t) (huq : uniqueLive t) :
    tblWF { t with buckets := fun i => if i = hv then nl :: t.buckets hv
            else t.buckets i } ∧
    uniqueLive { t with
                 buckets := fun i => if i = hv then nl :: t.buckets hv
                 else t.buckets i } := by
  have hnone := bucketScanHold_none key dev (t.buckets hv) hscan
  constructor
  · intro i e he
    have he2 : e ∈ (if i = hv then nl :: t.buckets hv else t.buckets i) := he
    show t.hash e.key e.dev &&& NEIGH_HASHMASK = i ∧ e.dead = false
    by_cases hi : i = hv
    · subst hi
      rw [if_pos rfl] at he2
      rcases List.mem_cons.mp he2 with rfl | hr
      · refine ⟨?_, hdead⟩
        rw [hk, hd, hhv]
      · exact hwf i e hr
    · rw [if_neg hi] at he2
      exact hwf i e he2
  · intro i k d
    show ((if i = hv then nl :: t.buckets hv else t.buckets i).countP
      fun e => e.key == k && e.dev == d) ≤ 1
    by_cases hi : i = hv
    · subst hi
      rw [if_pos rfl, List.countP_cons]
      by_cases hp : (nl.key == k && nl.dev == d) = true
      · have hk2 : nl.key = k ∧ nl.dev = d := by
          simpa using hp
        have hzero : ((t.buckets i).countP
            fun e => e.key == k && e.dev == d) = 0 := by
          rw [List.countP_eq_zero]
          intro x hx hpx
          have hx2 : x.key = k ∧ x.dev = d := by simpa using hpx
          exact hnone x hx ⟨by rw [hx2.2, ← hk2.2, hd],
            by rw [hx2.1, ← hk2.1, hk]⟩
        rw [hzero, hp]
        simp
      · have hp2 : (nl.key == k && nl.dev == d) = false :=
          Bool.not_eq_true _ ▸ eq_false_of_ne_true hp
        rw [hp2]
        simpa using huq i k d
    · rw [if_neg hi]
      exact huq i k d

/-- C1: uniqueness and convergence of `neigh_create`.  First two
conjuncts: the hash-placement/liveness well-formedness and the
at-most-one-live-entry-per-(key, device) invariants are preserved by
`neigh_create` on every path (forced GC, allocation or callback failure,
dead parameter block, duplicate found under the write lock, fresh link).
Third conjunct (convergence, stated below both GC thresholds so the
re-checked bucket is the caller's): when the under-lock re-check finds an
entry with the same (key, device) already linked, `neigh_create` returns
exactly that pre-existing entry with its reference count bumped (a held
reference), and does not link its new entry — the bucket keeps the same
entries, only the found entry's reference count changing. -/
theorem create_unique (hz : Nat) (memOk ctorOk setupOk : Bool) (now : Nat)
    (tbl : NTable) (key dev : Nat)
    (hwf : tblWF tbl) (huq : uniqueLive tbl) :
    tblWF (neigh_create hz memOk ctorOk setupOk now tbl key dev).1 ∧
    uniqueLive (neigh_create hz memOk ctorOk setupOk now tbl key dev).1 ∧
    (tbl.entries ≤ tbl.gc_thresh2 → tbl.entries ≤ tbl.gc_thresh3 →
     memOk = true → ctorOk = true → setupOk = true → tbl.parms.dead = false →
     ∀ f l1,
       bucketScanHold key dev
         (tbl.buckets (tbl.hash key dev &&& NEIGH_HASHMASK)) = some (f, l1) →
       (neigh_create hz memOk ctorOk setupOk now tbl key dev).2 = Except.ok f ∧
       (∃ e ∈ tbl.buckets (tbl.hash key dev &&& NEIGH_HASHMASK),
          e.key = key ∧ e.dev = dev ∧ f = { e with refcnt := e.refcnt + 1 }) ∧
       (neigh_create hz memOk ctorOk setupOk now tbl key dev).1.buckets
           (tbl.hash key dev &&& NEIGH_HASHMASK) = l1 ∧
       l1.length =
         (tbl.buckets (tbl.hash key dev &&& NEIGH_HASHMASK)).length) := by
  unfold neigh_create
  split
  next tbl1 halloc =>
    have hwf1 : tblWF tbl1 := by
      have h0 := tblWF_of_sub tbl (neigh_alloc hz memOk now tbl).1
        (neigh_alloc_hash hz memOk now tbl)
        (fun i e he => (neigh_alloc_buckets_sub hz memOk now tbl i).subset he) hwf
      rw [halloc] at h0
      exact h0
    have huq1 : uniqueLive tbl1 := by
      have h0 := uniqueLive_of_sub tbl (neigh_alloc hz memOk now tbl).1
        (neigh_alloc_buckets_sub hz memOk now tbl) huq
      rw [halloc] at h0
      exact h0
    refine ⟨hwf1, huq1, ?_⟩
    intro h2 h3 hm hc hs0 hpd f l1 hscan
    subst hm
    rw [neigh_alloc_noGC hz now tbl h2 h3] at halloc
    have hcontra := congrArg Prod.snd halloc
    simp at hcontra
  next tbl1 n0 halloc =>
    have hwf1 : tblWF tbl1 := by
      have h0 := tblWF_of_sub tbl (neigh_alloc hz memOk now tbl).1
        (neigh_alloc_hash hz memOk now tbl)
        (fun i e he => (neigh_alloc_buckets_sub hz memOk now tbl i).subset he) hwf
      rw [halloc] at h0
      exact h0
    have huq1 : uniqueLive tbl1 := by
      have h0 := uniqueLive_of_sub tbl (neigh_alloc hz memOk now tbl).1
        (neigh_alloc_buckets_sub hz memOk now tbl) huq
      rw [halloc] at h0
      exact h0
    have hparms1 : tbl1.parms = tbl.parms := by
      have h0 := neigh_alloc_parms hz memOk now tbl
      rw [halloc] at h0
      exact h0
    have hhash1 : tbl1.hash = tbl.hash := by
      have h0 := neigh_alloc_hash hz memOk now tbl
      rw [halloc] at h0
      exact h0
    by_cases hc1 : ctorOk = false
    · rw [if_pos hc1]
      refine ⟨fun i e he => hwf1 i e he, fun i k d => huq1 i k d, ?_⟩
      intro h2 h3 hm hc hs0 hpd f l1 hscan
      rw [hc] at hc1
      exact absurd hc1 (by decide)
    · rw [if_neg hc1]
      by_cases hc2 : setupOk = false
      · rw [if_pos hc2]
        refine ⟨fun i e he => hwf1 i e he, fun i k d => huq1 i k d, ?_⟩
        intro h2 h3 hm hc hs0 hpd f l1 hscan
        rw [hs0] at hc2
        exact absurd hc2 (by decide)
      · rw [if_neg hc2]
        by_cases hc3 : tbl1.parms.dead = true
        · rw [if_pos hc3]
          refine ⟨fun i e he => hwf1 i e he, fun i k d => huq1 i k d, ?_⟩
          intro h2 h3 hm hc hs0 hpd f l1 hscan
          rw [hparms1, hpd] at hc3
          exact absurd hc3 (by decide)
        · rw [if_neg hc3]
          cases hscan1 : bucketScanHold key dev
              (tbl1.buckets (tbl.hash key dev &&& NEIGH_HASHMASK)) with
          | some p =>
            obtain ⟨f0, nb⟩ := p
            have hinv := dupPath_invariants tbl1 key dev
              (tbl.hash key dev &&& NEIGH_HASHMASK) (tbl1.entries - 1)
              f0 nb hscan1 hwf1 huq1
            refine ⟨hinv.1, hinv.2, ?_⟩
            intro h2 h3 hm hc hs0 hpd f l1 hscan
            subst hm
            rw [neigh_alloc_noGC hz now tbl h2 h3] at halloc
            have htbl1 : tbl1 = { tbl with entries := tbl.entries + 1 } :=
              (congrArg Prod.fst halloc).symm
            have hscan2 : bucketScanHold key dev
                (tbl.buckets (tbl.hash key dev &&& NEIGH_HASHMASK)) =
                some (f0, nb) := by
              rw [htbl1] at hscan1
              exact hscan1
            have hfb : (f0, nb) = (f, l1) :=
              Option.some_inj.mp (hscan2.symm.trans hscan)
            have hf : f0 = f := congrArg Prod.fst hfb
            have hnb : nb = l1 := congrArg Prod.snd hfb
            obtain ⟨pre, e0, post, e1, e2, e3, e4, e5⟩ :=
              bucketScanHold_some key dev _ f l1 hscan
            refine ⟨?_, ⟨e0, ?_, e5, e4, e3⟩, ?_, ?_⟩
            · exact congrArg Except.ok hf
            · rw [e1]
              exact List.mem_append_right _ (List.mem_cons_self _ _)
            · exact (if_pos rfl :
                (if (tbl.hash key dev &&& NEIGH_HASHMASK) =
                    (tbl.hash key dev &&& NEIGH_HASHMASK) then nb
                 else tbl1.buckets (tbl.hash key dev &&& NEIGH_HASHMASK)) =
                  nb).trans hnb
            · rw [e2, e1]
              simp
          | none =>
            have hhv : tbl1.hash key dev &&& NEIGH_HASHMASK =
                tbl.hash key dev &&& NEIGH_HASHMASK := by
              rw [hhash1]
            have hinv := linkPath_invariants tbl1 key dev
              (tbl.hash key dev &&& NEIGH_HASHMASK)
              { n0 with
                  key := key, dev := dev,
                  confirmed := now - 2 * n0.parms.base_reachable_time,
                  dead := false, refcnt := n0.refcnt + 1 }
              hhv hscan1 rfl rfl rfl hwf1 huq1
            refine ⟨hinv.1, hinv.2, ?_⟩
            intro h2 h3 hm hc hs0 hpd f l1 hscan
            subst hm
            rw [neigh_alloc_noGC hz now tbl h2 h3] at halloc
            have htbl1 : tbl1 = { tbl with entries := tbl.entries + 1 } :=
              (congrArg Prod.fst halloc).symm
            have hscan2 : bucketScanHold key dev
                (tbl.buckets (tbl.hash key dev &&& NEIGH_HASHMASK)) =
                (none : Option (Neighbour × List Neighbour)) := by
              rw [htbl1] at hscan1
              exact hscan1
            have hcontra := hscan2.symm.trans hscan
            simp at hcontra

/-- Concrete linked entry (key 1, device 2) for the C1 witness. -/
def linkedEntry : Neighbour := { noneEntry with key := 1, dev := 2, refcnt := 1 }

/-- Concrete well-formed table holding `linkedEntry` in its hash bucket
(hash k d = k + d, so bucket 3), far below the GC thresholds. -/
def createTable : NTable :=
  { buckets := fun i => if i = 3 then [linkedEntry] else [],
    entries := 1, gc_thresh1 := 10, gc_thresh2 := 10, gc_thresh3 := 10,
    last_flush := 0, parms := parmsZero, hash := fun k d => k + d }

/-- Helper: the witness table is well-formed. -/
theorem createTable_wf : tblWF createTable := by
  intro i e he
  have he2 : e ∈ (if i = 3 then [linkedEntry] else []) := he
  by_cases hi : i = 3
  · subst hi
    rw [if_pos rfl] at he2
    rcases List.mem_singleton.mp he2 with rfl
    exact ⟨by decide, by decide⟩
  · rw [if_neg hi] at he2
    cases he2

/-- Helper: the witness table satisfies the uniqueness invariant. -/
theorem createTable_unique : uniqueLive createTable := by
  intro i k d
  show ((if i = 3 then [linkedEntry] else []).countP
    fun e => e.key == k && e.dev == d) ≤ 1
  by_cases hi : i = 3
  · subst hi
    rw [if_pos rfl]
    exact le_trans (List.countP_le_length _) (by decide)
  · rw [if_neg hi]
    simp

theorem create_unique_witness :
    (neigh_create 100 true true true 50 createTable 1 2).2 =
      Except.ok { linkedEntry with refcnt := 2 } ∧
    (neigh_create 100 true true true 50 createTable 1 2).1.buckets 3 =
      [{ linkedEntry with refcnt := 2 }] := by
  have h := create_unique 100 true true true 50 createTable 1 2
    createTable_wf createTable_unique
  have hc := h.2.2 (by decide) (by decide) rfl rfl rfl (by decide)
    { linkedEntry with refcnt := 2 } [{ linkedEntry with refcnt := 2 }]
    (by decide)
  exact ⟨hc.1, hc.2.2.1⟩

/-- A proxy entry (`struct pneigh_entry`): key, and owning device (`none`
models a null device, matching any lookup). -/
structure PneighEntry where
  key : Nat
  dev : Option Nat
  deriving DecidableEq

/-- The proxy part of `struct neigh_table`: the parallel proxy hash
buckets. -/
structure PTable where
  phash_buckets : Nat → List PneighEntry

/-- The proxy hash of `pneigh_lookup` (neighbour.c:376-381): the last
32-bit word of the key, xor-folded and masked; keys are modelled as the
value of that word. -/
def pneigh_hash (pkey : Nat) : Nat :=
  let h0 := pkey % 4294967296
  let h1 := h0 ^^^ (h0 >>> 16)
  let h2 := h1 ^^^ (h1 >>> 8)
  let h3 := h2 ^^^ (h2 >>> 4)
  h3 &&& PNEIGH_HASHMASK

/-- `pneigh_lookup` (neighbour.c:371-416): scan the proxy bucket for an
entry with the same key whose device is the given one or null (a
null-device proxy entry is a wildcard that matches lookups for any
device); on a hit, return it without creating anything.  On a miss with
the create flag set, allocate (may fail), run the protocol proxy
constructor (may fail, freeing the entry), and link at the bucket
head. -/
def pneigh_lookup (memOk pctorOk : Bool) (tbl : PTable) (pkey : Nat)
    (dev : Option Nat) (creat : Bool) : PTable × Option PneighEntry :=
  match (tbl.phash_buckets (pneigh_hash pkey)).find?
      (fun e => e.key == pkey && (e.dev == dev || e.dev == none)) with
  | some e => (tbl, some e)
  | none =>
    if creat = false then (tbl, none)
    else if memOk = false then (tbl, none)
    else if pctorOk = false then (tbl, none)
    else
      ({ phash_buckets := fun i =>
           if i = pneigh_hash pkey then
             ⟨pkey, dev⟩ :: tbl.phash_buckets (pneigh_hash pkey)
           else tbl.phash_buckets i },
       some ⟨pkey, dev⟩)

/-- C10: `pneigh_lookup` returns a proxy entry only if that entry's key
equals the given key and its device is the given device or null — a
null-device proxy entry matches lookups for any device — and when the
scan finds an existing entry, no new entry is created even when the
create flag is set: the table comes back unchanged and the returned entry
is the one already linked in the bucket. -/
theorem pneigh_wildcard_match (memOk pctorOk : Bool) (tbl : PTable)
    (pkey : Nat) (dev : Option Nat) (creat : Bool) :
    (∀ e, (pneigh_lookup memOk pctorOk tbl pkey dev creat).2 = some e →
      e.key = pkey ∧ (e.dev = dev ∨ e.dev = none)) ∧
    (∀ e0, (tbl.phash_buckets (pneigh_hash pkey)).find?
        (fun e => e.key == pkey && (e.dev == dev || e.dev == none)) = some e0 →
      (pneigh_lookup memOk pctorOk tbl pkey dev creat).1 = tbl ∧
      (pneigh_lookup memOk pctorOk tbl pkey dev creat).2 = some e0 ∧
      e0 ∈ tbl.phash_buckets (pneigh_hash pkey)) := by
  constructor
  · intro e he
    unfold pneigh_lookup at he
    cases hf : (tbl.phash_buckets (pneigh_hash pkey)).find?
        (fun e => e.key == pkey && (e.dev == dev || e.dev == none)) with
    | some e1 =>
      rw [hf] at he
      have he1 : e1 = e := Option.some_inj.mp he
      subst he1
      have hp := List.find?_some hf
      have hp2 : e1.key = pkey ∧ (e1.dev = dev ∨ e1.dev = none) := by
        simpa using hp
      exact hp2
    | none =>
      rw [hf] at he
      split_ifs at he with h1 h2 h3
      all_goals
        first
          | exact Option.noConfusion he
          | (have hee : (⟨pkey, dev⟩ : PneighEntry) = e := Option.some_inj.mp he
             subst hee
             exact ⟨rfl, Or.inl rfl⟩)
  · intro e0 hf
    unfold pneigh_lookup
    rw [hf]
    exact ⟨rfl, rfl, List.mem_of_find?_eq_some hf⟩

/-- Concrete wildcard proxy entry: key 7, null device. -/
def wildcardProxy : PneighEntry := ⟨7, none⟩

/-- Concrete proxy table holding the wildcard entry in its hash bucket. -/
def proxyTable : PTable :=
  { phash_buckets := fun i => if i = pneigh_hash 7 then [wildcardProxy] else [] }

theorem pneigh_wildcard_match_witness :
    (pneigh_lookup true true proxyTable 7 (some 9) true).1 = proxyTable ∧
    (pneigh_lookup true true proxyTable 7 (some 9) true).2 = some wildcardProxy ∧
    (wildcardProxy.key = 7 ∧
      (wildcardProxy.dev = some 9 ∨ wildcardProxy.dev = none)) := by
  have h := pneigh_wildcard_match true true proxyTable 7 (some 9) true
  have h2 := h.2 wildcardProxy (by decide)
  exact ⟨h2.1, h2.2.1, h.1 wildcardProxy h2.2.1⟩

end Neigh